import Mathlib

/-! Room state table of purple-matrix (`matrix-statetable.c`).

A shallow embedding of the state table (`matrix_statetable_new`,
`matrix_statetable_get_event`, `matrix_statetable_update`) and of the room
name resolution (`matrix_statetable_get_room_alias_new`), followed by the
properties proved about them.

Conventions of the embedding:

* a nullable C pointer (`const gchar *`, `JsonObject *`, `MatrixRoomEvent *`)
  is an `Option`; `NULL` is `none`;
* a `GHashTable` keyed by strings is the list of its entries **in the order in
  which a `GHashTableIter` enumerates them**.  GLib does not specify that
  order, so nothing below depends on where a new key lands; statements about
  "every enumeration order" quantify over all such lists;
* the inner tables are held by pointer in the outer table, so an insertion
  into an inner table is written back under the same outer key;
* the update callback is an effectful C function: it is a transformer of the
  caller's `user_data` state, which can also read the table as it stands at
  the moment of the call.
-/

namespace MatrixStatetable

/-! ## JSON values -/

/-- A JSON document as json-glib holds it.  Numbers are integers here: no
accessor used by the state table tells a number from any other non-string
scalar. -/
inductive JsonNode where
  | null : JsonNode
  | bool (b : Bool) : JsonNode
  | int (n : Int) : JsonNode
  | str (s : String) : JsonNode
  | arr (elements : List JsonNode) : JsonNode
  | obj (members : List (String × JsonNode)) : JsonNode

/-- A JSON object: its members by name. -/
abbrev JsonObject := List (String × JsonNode)

/-- A JSON array: its elements in order. -/
abbrev JsonArray := List JsonNode

/-- Member lookup by name in a JSON object (`json_object_get_member`). -/
def json_object_get_member : JsonObject → String → Option JsonNode
  | [], _ => none
  | (name, node) :: rest, member_name =>
    if name = member_name then some node else json_object_get_member rest member_name

/-- Modelled from the spec: `matrix_json_object_get_string_member` of
matrix-json.c, the "JSON-like document accessor (member lookup by name)" for
string fields.  The member's string, absent when the member is missing or is
not a string. -/
def matrix_json_object_get_string_member (object : JsonObject) (member_name : String) :
    Option String :=
  match json_object_get_member object member_name with
  | some (JsonNode.str s) => some s
  | _ => none

/-- Modelled from the spec: `matrix_json_object_get_object_member` of
matrix-json.c, the document accessor for structured fields.  The member's
object, absent when the member is missing or is not an object. -/
def matrix_json_object_get_object_member (object : JsonObject) (member_name : String) :
    Option JsonObject :=
  match json_object_get_member object member_name with
  | some (JsonNode.obj members) => some members
  | _ => none

/-- Modelled from the spec: `matrix_json_object_get_array_member` of
matrix-json.c, the document accessor for array fields.  The member's array,
absent when the member is missing or is not an array. -/
def matrix_json_object_get_array_member (object : JsonObject) (member_name : String) :
    Option JsonArray :=
  match json_object_get_member object member_name with
  | some (JsonNode.arr elements) => some elements
  | _ => none

/-- Length of a JSON array (`json_array_get_length`). -/
def json_array_get_length (array : JsonArray) : Nat :=
  array.length

/-- Modelled from the spec: `matrix_json_array_get_string_element` of
matrix-json.c, the document accessor for "array element access".  The string
at `index`, absent when the index is out of range or the element is not a
string. -/
def matrix_json_array_get_string_element (array : JsonArray) (index : Nat) : Option String :=
  match array.get? index with
  | some (JsonNode.str s) => some s
  | _ => none

/-! ## Events -/

/-- The event wrapper stored in the table (`MatrixRoomEvent`): the fields the
state table reads and writes.  `sender` is a `gchar *` that the constructor
leaves unset. -/
structure MatrixRoomEvent where
  event_type : String
  sender : Option String
  content : JsonObject

/-- Modelled from the spec: `matrix_event_new` of matrix-event.c, the
"event-construction facility".  A fresh event of the given type and content;
the sender is assigned afterwards by the caller. -/
def matrix_event_new (event_type : String) (content : JsonObject) : MatrixRoomEvent :=
  { event_type := event_type, sender := none, content := content }

/-! ## Hash tables -/

/-- A `GHashTable` with string keys (`g_str_hash`, `g_str_equal`): its entries
in enumeration order. -/
abbrev GHashTable (V : Type) := List (String × V)

/-- Lookup by key (`g_hash_table_lookup`): the value, `none` for `NULL`. -/
def g_hash_table_lookup {V : Type} : GHashTable V → String → Option V
  | [], _ => none
  | (k, v) :: rest, key => if k = key then some v else g_hash_table_lookup rest key

/-- Insertion (`g_hash_table_insert`): an existing key keeps its place and
gets the new value; a new key becomes a new entry. -/
def g_hash_table_insert {V : Type} : GHashTable V → String → V → GHashTable V
  | [], key, value => [(key, value)]
  | (k, v) :: rest, key, value =>
    if k = key then (k, value) :: rest else (k, v) :: g_hash_table_insert rest key value

/-- The state table: event type ↦ (state key ↦ event). -/
abbrev MatrixRoomStateEventTable := GHashTable (GHashTable MatrixRoomEvent)

/-- The update callback (`MatrixStateUpdateCallback`):
`callback(event_type, state_key, old_event, event, user_data)`, run on the
table as it stands when the callback is called. -/
abbrev MatrixStateUpdateCallback (σ : Type) :=
  MatrixRoomStateEventTable → String → String → Option MatrixRoomEvent → MatrixRoomEvent → σ → σ

/-! ## The state table -/

/-- The function `matrix_statetable_new`: a new, empty, state table. -/
def matrix_statetable_new : MatrixRoomStateEventTable := []

/-- The function `matrix_statetable_get_event`: look up a particular bit of state; `none`
if the key is not known. -/
def matrix_statetable_get_event (state_table : MatrixRoomStateEventTable)
    (event_type : String) (state_key : String) : Option MatrixRoomEvent :=
  match g_hash_table_lookup state_table event_type with
  | none => none
  | some tmp => g_hash_table_lookup tmp state_key

/-- The test `g_strcmp0(str1, str2) == 0` on nullable strings. -/
def g_strcmp0_eq (str1 str2 : Option String) : Bool :=
  decide (str1 = str2)

/-- The fields `matrix_statetable_update` works with once it has read,
normalised and validated the raw event (lines 78-97): `none` when the update
is rejected with "event missing fields". -/
def matrix_statetable_update_fields (json_event_obj : JsonObject) :
    Option (String × String × String × JsonObject) :=
  let event_type := matrix_json_object_get_string_member json_event_obj "type"
  let state_key := matrix_json_object_get_string_member json_event_obj "state_key"
  let sender := matrix_json_object_get_string_member json_event_obj "sender"
  let json_content_obj := matrix_json_object_get_object_member json_event_obj "content"
  let typing := g_strcmp0_eq event_type (some "m.typing")
  -- Create a fake key so we can keep track of typing state
  let state_key := if typing then some "typing" else state_key
  let sender := if typing then some "" else sender
  match event_type, state_key, sender, json_content_obj with
  | some event_type, some state_key, some sender, some json_content_obj =>
    some (event_type, state_key, sender, json_content_obj)
  | _, _, _, _ => none

/-- The function `matrix_statetable_update`: update the state table on a room.  Returns the
table and the caller's state after the call. -/
def matrix_statetable_update {σ : Type} (state_table : MatrixRoomStateEventTable)
    (json_event_obj : JsonObject) (callback : Option (MatrixStateUpdateCallback σ))
    (user_data : σ) : MatrixRoomStateEventTable × σ :=
  match matrix_statetable_update_fields json_event_obj with
  | none => (state_table, user_data)
  | some (event_type, state_key, sender, json_content_obj) =>
    let event : MatrixRoomEvent :=
      { matrix_event_new event_type json_content_obj with sender := some sender }
    let found : MatrixRoomStateEventTable × GHashTable MatrixRoomEvent × Option MatrixRoomEvent :=
      match g_hash_table_lookup state_table event_type with
      | none => (g_hash_table_insert state_table event_type [], [], none)
      | some state_table_entry =>
        (state_table, state_table_entry, g_hash_table_lookup state_table_entry state_key)
    let state_table := found.1
    let state_table_entry := found.2.1
    let old_event := found.2.2
    let user_data :=
      match callback with
      | some cb => cb state_table event_type state_key old_event event user_data
      | none => user_data
    (g_hash_table_insert state_table event_type
      (g_hash_table_insert state_table_entry state_key event), user_data)

/-- The scan of the `m.room.aliases` entries (lines 171-181): the first
string found at element 0 of a non-empty `aliases` array, in enumeration
order. -/
def matrix_statetable_scan_aliases : GHashTable MatrixRoomEvent → Option String
  | [] => none
  | (_, event) :: rest =>
    match matrix_json_object_get_array_member event.content "aliases" with
    | some array =>
      if json_array_get_length array > 0 then
        match matrix_json_array_get_string_element array 0 with
        | some tmpname => some tmpname
        | none => matrix_statetable_scan_aliases rest
      else matrix_statetable_scan_aliases rest
    | none => matrix_statetable_scan_aliases rest

/-- The room-name step (lines 143-151): the official room name, when it is
consulted and is a non-empty string.  A C string has no NUL inside, so
`tmpname[0] != 0` says that the string is not empty. -/
def matrix_statetable_room_name (state_table : MatrixRoomStateEventTable)
    (alias_only : Bool) : Option String :=
  match matrix_statetable_get_event state_table "m.room.name" "" with
  | some event =>
    if !alias_only then
      match matrix_json_object_get_string_member event.content "name" with
      | some tmpname => if tmpname ≠ "" then some tmpname else none
      | none => none
    else none
  | none => none

/-- The canonical-alias step (lines 153-162). -/
def matrix_statetable_canonical_alias (state_table : MatrixRoomStateEventTable) :
    Option String :=
  match matrix_statetable_get_event state_table "m.room.canonical_alias" "" with
  | some event => matrix_json_object_get_string_member event.content "alias"
  | none => none

/-- The aliases step (lines 164-182). -/
def matrix_statetable_any_alias (state_table : MatrixRoomStateEventTable) : Option String :=
  match g_hash_table_lookup state_table "m.room.aliases" with
  | some tmp => matrix_statetable_scan_aliases tmp
  | none => none

/-- The function `matrix_statetable_get_room_alias_new`: if the room has an official name,
or an alias, return it.  If `alias_only` is true, only return aliases (i.e.
not room names). -/
def matrix_statetable_get_room_alias_new (state_table : MatrixRoomStateEventTable)
    (alias_only : Bool) : Option String :=
  match matrix_statetable_room_name state_table alias_only with
  | some tmpname => some tmpname
  | none =>
    match matrix_statetable_canonical_alias state_table with
    | some tmpname => some tmpname
    | none => matrix_statetable_any_alias state_table

/-- The function `matrix_statetable_get_room_alias`: the name or alias of the room. -/
def matrix_statetable_get_room_alias (state_table : MatrixRoomStateEventTable) :
    Option String :=
  matrix_statetable_get_room_alias_new state_table false

/-! ## The steps of the name resolution, as the specification words them -/

/-- The room name does not win: `alias_only` is set, or nothing is stored
under (`m.room.name`, `""`), or the `name` field of its content is absent
(missing or not a string) or is the empty string. -/
def name_does_not_win (state_table : MatrixRoomStateEventTable) (alias_only : Bool) : Bool :=
  alias_only ||
    match matrix_statetable_get_event state_table "m.room.name" "" with
    | none => true
    | some event =>
      match matrix_json_object_get_string_member event.content "name" with
      | none => true
      | some name => name == ""

/-- The canonical alias does not match: nothing is stored under
(`m.room.canonical_alias`, `""`), or the `alias` field of its content is
absent (missing or not a string). -/
def no_canonical_alias (state_table : MatrixRoomStateEventTable) : Bool :=
  match matrix_statetable_get_event state_table "m.room.canonical_alias" "" with
  | none => true
  | some event => (matrix_json_object_get_string_member event.content "alias").isNone

/-- The `aliases` array of the content of an event is present and not empty. -/
def has_nonempty_aliases (event : MatrixRoomEvent) : Bool :=
  match matrix_json_object_get_array_member event.content "aliases" with
  | some array => decide (json_array_get_length array > 0)
  | none => false

/-- Element 0 of the `aliases` array of the content of an event, when the
array is there and the element is a string. -/
def first_alias (event : MatrixRoomEvent) : Option String :=
  match matrix_json_object_get_array_member event.content "aliases" with
  | some array => matrix_json_array_get_string_element array 0
  | none => none

/-- The aliases step in the words of the specification: "for the first entry
whose content's `aliases` array is non-empty, return its first element". -/
def first_nonempty_aliases_entry (entries : GHashTable MatrixRoomEvent) : Option String :=
  match entries.find? (fun entry => has_nonempty_aliases entry.2) with
  | some entry => first_alias entry.2
  | none => none

/-- The aliases step with entries that do not start with a string skipped:
for the first entry whose `aliases` array has a string as element 0, that
string. -/
def first_string_alias_entry (entries : GHashTable MatrixRoomEvent) : Option String :=
  match entries.find? (fun entry => (first_alias entry.2).isSome) with
  | some entry => first_alias entry.2
  | none => none

/-! ## Sequences of updates and recorded callbacks -/

/-- A sequence of calls of `matrix_statetable_update` on the same table, each
with its own raw event and callback, threading the caller's state. -/
def matrix_statetable_update_all {σ : Type} (state_table : MatrixRoomStateEventTable) :
    List (JsonObject × Option (MatrixStateUpdateCallback σ)) → σ →
      MatrixRoomStateEventTable × σ
  | [], user_data => (state_table, user_data)
  | (json_event_obj, callback) :: rest, user_data =>
    matrix_statetable_update_all
      (matrix_statetable_update state_table json_event_obj callback user_data).1 rest
      (matrix_statetable_update state_table json_event_obj callback user_data).2

/-- One invocation of the update callback: its arguments, and the table as it
stood when the callback ran. -/
structure HookCall where
  table_at_call : MatrixRoomStateEventTable
  event_type : String
  state_key : String
  old_event : Option MatrixRoomEvent
  event : MatrixRoomEvent

/-- A callback that appends each of its invocations to a log kept in
`user_data`. -/
def record_call : MatrixStateUpdateCallback (List HookCall) :=
  fun table_at_call event_type state_key old_event event log =>
    log ++ [{ table_at_call := table_at_call, event_type := event_type,
              state_key := state_key, old_event := old_event, event := event }]

/-- A raw state event with all four envelope fields. -/
def raw_state_event (event_type state_key sender : String) (content : JsonObject) :
    JsonObject :=
  [("type", JsonNode.str event_type), ("state_key", JsonNode.str state_key),
   ("sender", JsonNode.str sender), ("content", JsonNode.obj content)]

/-- Acceptance in the words of the specification: type and content are
present, and either the type is `m.typing` or both state key and sender are
present. -/
def update_is_accepted (json_event_obj : JsonObject) : Bool :=
  (matrix_json_object_get_string_member json_event_obj "type").isSome &&
  (matrix_json_object_get_object_member json_event_obj "content").isSome &&
  (decide (matrix_json_object_get_string_member json_event_obj "type" = some "m.typing") ||
    ((matrix_json_object_get_string_member json_event_obj "state_key").isSome &&
      (matrix_json_object_get_string_member json_event_obj "sender").isSome))

/-- The inner mapping of `m.typing`, when there is one, has no entry or just
the one of state key `typing`, whose event has the sender `""`. -/
def single_typing_slot (state_table : MatrixRoomStateEventTable) : Bool :=
  match g_hash_table_lookup state_table "m.typing" with
  | none => true
  | some [] => true
  | some [(key, event)] => key == "typing" && event.sender == some ""
  | some (_ :: _ :: _) => false

/-! ## Hash table lemmas -/

theorem g_hash_table_lookup_insert_self {V : Type} (table : GHashTable V) (key : String)
    (value : V) : g_hash_table_lookup (g_hash_table_insert table key value) key = some value := by
  induction table with
  | nil => simp [g_hash_table_insert, g_hash_table_lookup]
  | cons entry rest ih =>
    obtain ⟨k, v⟩ := entry
    by_cases h : k = key
    · simp [g_hash_table_insert, g_hash_table_lookup, h]
    · simp [g_hash_table_insert, g_hash_table_lookup, h, ih]

theorem g_hash_table_lookup_insert_other {V : Type} (table : GHashTable V) (key other : String)
    (value : V) (h : other ≠ key) :
    g_hash_table_lookup (g_hash_table_insert table key value) other =
      g_hash_table_lookup table other := by
  induction table with
  | nil =>
    have h2 : key ≠ other := fun e => h e.symm
    simp [g_hash_table_insert, g_hash_table_lookup, h2]
  | cons entry rest ih =>
    obtain ⟨k, v⟩ := entry
    by_cases hk : k = key
    · have h2 : ¬ key = other := fun e => h e.symm
      simp [g_hash_table_insert, g_hash_table_lookup, hk, h2]
    · by_cases ho : k = other
      · subst ho
        simp [g_hash_table_insert, g_hash_table_lookup, h]
      · simp [g_hash_table_insert, g_hash_table_lookup, hk, ho, ih]

/-! ## What an update does -/

/-- A rejected update returns the table and the caller's state as they were. -/
theorem update_rejected {σ : Type} (state_table : MatrixRoomStateEventTable)
    (json_event_obj : JsonObject) (callback : Option (MatrixStateUpdateCallback σ))
    (user_data : σ) (h : matrix_statetable_update_fields json_event_obj = none) :
    matrix_statetable_update state_table json_event_obj callback user_data =
      (state_table, user_data) := by
  simp [matrix_statetable_update, h]

/-- An accepted update stores the new event under its type and state key. -/
theorem get_event_update_self {σ : Type} (state_table : MatrixRoomStateEventTable)
    (json_event_obj : JsonObject) (callback : Option (MatrixStateUpdateCallback σ))
    (user_data : σ) (event_type state_key sender : String) (content : JsonObject)
    (h : matrix_statetable_update_fields json_event_obj =
      some (event_type, state_key, sender, content)) :
    matrix_statetable_get_event
        (matrix_statetable_update state_table json_event_obj callback user_data).1
        event_type state_key =
      some { event_type := event_type, sender := some sender, content := content } := by
  simp only [matrix_statetable_update, h, matrix_statetable_get_event,
    g_hash_table_lookup_insert_self, matrix_event_new]

/-- An accepted update leaves every other (type, state key) pair as it was. -/
theorem get_event_update_other {σ : Type} (state_table : MatrixRoomStateEventTable)
    (json_event_obj : JsonObject) (callback : Option (MatrixStateUpdateCallback σ))
    (user_data : σ) (event_type state_key sender : String) (content : JsonObject)
    (h : matrix_statetable_update_fields json_event_obj =
      some (event_type, state_key, sender, content))
    (t k : String) (hne : ¬ (t = event_type ∧ k = state_key)) :
    matrix_statetable_get_event
        (matrix_statetable_update state_table json_event_obj callback user_data).1 t k =
      matrix_statetable_get_event state_table t k := by
  simp only [matrix_statetable_update, h, matrix_statetable_get_event]
  by_cases ht : t = event_type
  · subst ht
    have hk : k ≠ state_key := fun e => hne ⟨rfl, e⟩
    have hk2 : ¬ state_key = k := fun e => hk e.symm
    rw [g_hash_table_lookup_insert_self]
    cases hl : g_hash_table_lookup state_table t with
    | none => simp [g_hash_table_insert, g_hash_table_lookup, hk2]
    | some entry => simp [g_hash_table_lookup_insert_other, hk]
  · rw [g_hash_table_lookup_insert_other _ _ _ _ ht]
    cases hl : g_hash_table_lookup state_table event_type with
    | none => simp [g_hash_table_lookup_insert_other, ht]
    | some entry => simp

/-! ## Normalisation and validation -/

/-- A raw event of a type other than `m.typing` with all four fields is
accepted with the fields it supplies. -/
theorem update_fields_of_valid (json_event_obj : JsonObject)
    (event_type state_key sender : String) (content : JsonObject)
    (htype : matrix_json_object_get_string_member json_event_obj "type" = some event_type)
    (hnt : event_type ≠ "m.typing")
    (hkey : matrix_json_object_get_string_member json_event_obj "state_key" = some state_key)
    (hsender : matrix_json_object_get_string_member json_event_obj "sender" = some sender)
    (hcontent : matrix_json_object_get_object_member json_event_obj "content" = some content) :
    matrix_statetable_update_fields json_event_obj =
      some (event_type, state_key, sender, content) := by
  simp [matrix_statetable_update_fields, htype, hkey, hsender, hcontent, g_strcmp0_eq, hnt]

/-- A raw `m.typing` event with a content object is accepted under the state
key `typing` and the sender `""`, whatever it supplies for them. -/
theorem update_fields_of_typing (json_event_obj : JsonObject) (content : JsonObject)
    (htype : matrix_json_object_get_string_member json_event_obj "type" = some "m.typing")
    (hcontent : matrix_json_object_get_object_member json_event_obj "content" = some content) :
    matrix_statetable_update_fields json_event_obj =
      some ("m.typing", "typing", "", content) := by
  simp [matrix_statetable_update_fields, htype, hcontent, g_strcmp0_eq]

/-- A raw event without a type or without a content object is rejected. -/
theorem update_fields_of_no_type_or_content (json_event_obj : JsonObject)
    (h : matrix_json_object_get_string_member json_event_obj "type" = none ∨
      matrix_json_object_get_object_member json_event_obj "content" = none) :
    matrix_statetable_update_fields json_event_obj = none := by
  rcases h with h | h
  · simp [matrix_statetable_update_fields, h, g_strcmp0_eq]
  · simp only [matrix_statetable_update_fields, h]
    split <;> simp_all

/-- A raw event of a type other than `m.typing` without a state key or
without a sender is rejected. -/
theorem update_fields_of_no_key_or_sender (json_event_obj : JsonObject)
    (hnt : matrix_json_object_get_string_member json_event_obj "type" ≠ some "m.typing")
    (h : matrix_json_object_get_string_member json_event_obj "state_key" = none ∨
      matrix_json_object_get_string_member json_event_obj "sender" = none) :
    matrix_statetable_update_fields json_event_obj = none := by
  rcases h with h | h
  · simp only [matrix_statetable_update_fields, h, g_strcmp0_eq, hnt]
    split <;> simp_all
  · simp only [matrix_statetable_update_fields, h, g_strcmp0_eq, hnt]
    split <;> simp_all

/-! ## Sequences of updates -/

theorem update_all_append {σ : Type}
    (calls more : List (JsonObject × Option (MatrixStateUpdateCallback σ))) :
    ∀ (state_table : MatrixRoomStateEventTable) (user_data : σ),
    matrix_statetable_update_all state_table (calls ++ more) user_data =
      matrix_statetable_update_all
        (matrix_statetable_update_all state_table calls user_data).1 more
        (matrix_statetable_update_all state_table calls user_data).2 := by
  induction calls with
  | nil => intro state_table user_data; rfl
  | cons call rest ih =>
    intro state_table user_data
    obtain ⟨json_event_obj, callback⟩ := call
    simp only [List.cons_append, matrix_statetable_update_all]
    exact ih _ _

/-- A pair that no accepted update of the sequence writes is left as it was. -/
theorem get_event_update_all_other {σ : Type} (t k : String)
    (calls : List (JsonObject × Option (MatrixStateUpdateCallback σ))) :
    ∀ (state_table : MatrixRoomStateEventTable) (user_data : σ),
    (∀ call ∈ calls, ∀ (sender : String) (content : JsonObject),
      matrix_statetable_update_fields call.1 ≠ some (t, k, sender, content)) →
    matrix_statetable_get_event
        (matrix_statetable_update_all state_table calls user_data).1 t k =
      matrix_statetable_get_event state_table t k := by
  induction calls with
  | nil => intro state_table user_data _; rfl
  | cons call rest ih =>
    intro state_table user_data h
    obtain ⟨json_event_obj, callback⟩ := call
    simp only [matrix_statetable_update_all]
    rw [ih _ _ (fun c hc => h c (List.mem_cons_of_mem _ hc))]
    cases hf : matrix_statetable_update_fields json_event_obj with
    | none => rw [update_rejected _ _ _ _ hf]
    | some fields =>
      obtain ⟨event_type, state_key, sender, content⟩ := fields
      apply get_event_update_other _ _ _ _ _ _ _ _ hf
      rintro ⟨rfl, rfl⟩
      exact h (json_event_obj, callback) (List.mem_cons_self _ _) sender content hf

/-- What the recording callback logs for an accepted update: one invocation,
with the normalised type and state key, the event stored before the call and
the newly built event, run before the new event is inserted. -/
theorem update_record_call (state_table : MatrixRoomStateEventTable)
    (json_event_obj : JsonObject) (log : List HookCall)
    (event_type state_key sender : String) (content : JsonObject)
    (h : matrix_statetable_update_fields json_event_obj =
      some (event_type, state_key, sender, content)) :
    (matrix_statetable_update state_table json_event_obj (some record_call) log).2 =
      log ++ [{ table_at_call :=
                  (match g_hash_table_lookup state_table event_type with
                   | none => g_hash_table_insert state_table event_type []
                   | some _ => state_table),
                event_type := event_type,
                state_key := state_key,
                old_event := matrix_statetable_get_event state_table event_type state_key,
                event := { event_type := event_type, sender := some sender,
                           content := content } }] := by
  simp only [matrix_statetable_update, h, record_call, matrix_statetable_get_event,
    matrix_event_new]
  cases hl : g_hash_table_lookup state_table event_type <;> rfl

/-! ## Properties of lookup and update -/

/-- C1. Last writer wins: after an update with a raw event whose type (other
than `m.typing`), state key, sender and content are all present,
`matrix_statetable_get_event` at that type and state key returns the event
built from the raw event, whatever the table held before; and after any
sequence of such updates sharing the type and state key, it returns the event
of the last update of the sequence. -/
theorem last_writer_wins {σ : Type} (state_table : MatrixRoomStateEventTable)
    (earlier : List (JsonObject × Option (MatrixStateUpdateCallback σ)))
    (json_event_obj : JsonObject) (callback : Option (MatrixStateUpdateCallback σ))
    (user_data : σ) (event_type state_key sender : String) (content : JsonObject)
    (htype : matrix_json_object_get_string_member json_event_obj "type" = some event_type)
    (hnt : event_type ≠ "m.typing")
    (hkey : matrix_json_object_get_string_member json_event_obj "state_key" = some state_key)
    (hsender : matrix_json_object_get_string_member json_event_obj "sender" = some sender)
    (hcontent : matrix_json_object_get_object_member json_event_obj "content" = some content)
    (_hearlier : ∀ call ∈ earlier,
      matrix_json_object_get_string_member call.1 "type" = some event_type ∧
      matrix_json_object_get_string_member call.1 "state_key" = some state_key ∧
      (matrix_json_object_get_string_member call.1 "sender").isSome = true ∧
      (matrix_json_object_get_object_member call.1 "content").isSome = true) :
    matrix_statetable_get_event
        (matrix_statetable_update state_table json_event_obj callback user_data).1
        event_type state_key =
      some { event_type := event_type, sender := some sender, content := content } ∧
    matrix_statetable_get_event
        (matrix_statetable_update_all state_table
          (earlier ++ [(json_event_obj, callback)]) user_data).1
        event_type state_key =
      some { event_type := event_type, sender := some sender, content := content } := by
  have hf := update_fields_of_valid json_event_obj event_type state_key sender content
    htype hnt hkey hsender hcontent
  refine ⟨get_event_update_self _ _ _ _ _ _ _ _ hf, ?_⟩
  rw [update_all_append]
  simp only [matrix_statetable_update_all]
  exact get_event_update_self _ _ _ _ _ _ _ _ hf

/-- Two updates of the topic of a room from the empty table: the second one
is the one that is read back. -/
theorem last_writer_wins_witness :
    matrix_statetable_get_event
        (matrix_statetable_update matrix_statetable_new
          (raw_state_event "m.room.topic" "" "@b:x" [("topic", JsonNode.str "new")])
          (none : Option (MatrixStateUpdateCallback Unit)) ()).1
        "m.room.topic" "" =
      some { event_type := "m.room.topic", sender := some "@b:x",
             content := [("topic", JsonNode.str "new")] } ∧
    matrix_statetable_get_event
        (matrix_statetable_update_all matrix_statetable_new
          ([(raw_state_event "m.room.topic" "" "@a:x" [("topic", JsonNode.str "old")],
              (none : Option (MatrixStateUpdateCallback Unit)))] ++
            [(raw_state_event "m.room.topic" "" "@b:x" [("topic", JsonNode.str "new")],
              none)]) ()).1
        "m.room.topic" "" =
      some { event_type := "m.room.topic", sender := some "@b:x",
             content := [("topic", JsonNode.str "new")] } :=
  last_writer_wins matrix_statetable_new
    [(raw_state_event "m.room.topic" "" "@a:x" [("topic", JsonNode.str "old")], none)]
    (raw_state_event "m.room.topic" "" "@b:x" [("topic", JsonNode.str "new")]) none ()
    "m.room.topic" "" "@b:x" [("topic", JsonNode.str "new")]
    (by decide) (by decide) (by decide) (by decide) rfl
    (by
      intro call hcall
      rw [List.mem_singleton] at hcall
      subst hcall
      exact ⟨by decide, by decide, by decide, rfl⟩)

/-- C2, as stated, fails: a raw `m.typing` event with a content object but
neither state key nor sender is missing two of the four fields, and the
update on the empty table is accepted all the same: the callback runs once
and the event is stored. -/
theorem missing_fields_typing_accepted :
    (matrix_json_object_get_string_member
        [("type", JsonNode.str "m.typing"),
         ("content", JsonNode.obj [("user_ids", JsonNode.arr [])])] "state_key" = none ∧
      matrix_json_object_get_string_member
        [("type", JsonNode.str "m.typing"),
         ("content", JsonNode.obj [("user_ids", JsonNode.arr [])])] "sender" = none) ∧
    matrix_statetable_get_event matrix_statetable_new "m.typing" "typing" = none ∧
    (matrix_statetable_get_event
        (matrix_statetable_update matrix_statetable_new
          [("type", JsonNode.str "m.typing"),
           ("content", JsonNode.obj [("user_ids", JsonNode.arr [])])]
          (some record_call) []).1 "m.typing" "typing").isSome = true ∧
    (matrix_statetable_update matrix_statetable_new
        [("type", JsonNode.str "m.typing"),
         ("content", JsonNode.obj [("user_ids", JsonNode.arr [])])]
        (some record_call) []).2.length = 1 := by
  have hf : matrix_statetable_update_fields
      [("type", JsonNode.str "m.typing"),
       ("content", JsonNode.obj [("user_ids", JsonNode.arr [])])] =
      some ("m.typing", "typing", "", [("user_ids", JsonNode.arr [])]) :=
    update_fields_of_typing _ _ (by decide) rfl
  refine ⟨⟨by decide, by decide⟩, rfl, ?_, ?_⟩
  · rw [get_event_update_self _ _ _ _ _ _ _ _ hf]
    rfl
  · rw [update_record_call _ _ _ _ _ _ _ hf]
    rfl

/-- C2, amended. If the raw event has no type, or no content object, or is of
a type other than `m.typing` and has no state key or no sender, then
`matrix_statetable_update` returns the table as it was, and no callback is
invoked: the state of the caller is untouched whatever the callback, and the
recording callback logs nothing. -/
theorem rejected_update_unchanged (state_table : MatrixRoomStateEventTable)
    (json_event_obj : JsonObject)
    (h : matrix_json_object_get_string_member json_event_obj "type" = none ∨
      matrix_json_object_get_object_member json_event_obj "content" = none ∨
      (matrix_json_object_get_string_member json_event_obj "type" ≠ some "m.typing" ∧
        (matrix_json_object_get_string_member json_event_obj "state_key" = none ∨
          matrix_json_object_get_string_member json_event_obj "sender" = none))) :
    (∀ (σ : Type) (callback : Option (MatrixStateUpdateCallback σ)) (user_data : σ),
      matrix_statetable_update state_table json_event_obj callback user_data =
        (state_table, user_data)) ∧
    (matrix_statetable_update state_table json_event_obj (some record_call) []).2 = [] := by
  have hf : matrix_statetable_update_fields json_event_obj = none := by
    rcases h with h | h | ⟨hnt, h⟩
    · exact update_fields_of_no_type_or_content _ (Or.inl h)
    · exact update_fields_of_no_type_or_content _ (Or.inr h)
    · exact update_fields_of_no_key_or_sender _ hnt h
  refine ⟨fun σ callback user_data => update_rejected _ _ _ _ hf, ?_⟩
  rw [update_rejected _ _ _ _ hf]

/-- A membership event without a sender changes nothing in the empty table
and reaches no callback. -/
theorem rejected_update_unchanged_witness :
    (∀ (σ : Type) (callback : Option (MatrixStateUpdateCallback σ)) (user_data : σ),
      matrix_statetable_update matrix_statetable_new
          [("type", JsonNode.str "m.room.member"), ("state_key", JsonNode.str "@a:x"),
           ("content", JsonNode.obj [])] callback user_data =
        (matrix_statetable_new, user_data)) ∧
    (matrix_statetable_update matrix_statetable_new
        [("type", JsonNode.str "m.room.member"), ("state_key", JsonNode.str "@a:x"),
         ("content", JsonNode.obj [])] (some record_call) []).2 = [] :=
  rejected_update_unchanged matrix_statetable_new
    [("type", JsonNode.str "m.room.member"), ("state_key", JsonNode.str "@a:x"),
     ("content", JsonNode.obj [])]
    (Or.inr (Or.inr ⟨by decide, Or.inr (by decide)⟩))

/-- C3. Typing events share one slot: after an update with a raw event of
type `m.typing` that has a content object, whatever state key and sender it
supplies, `matrix_statetable_get_event` at (`m.typing`, `typing`) returns an
event with sender `""` and the content of the raw event; every other pair,
the supplied state key among them, reads as it did before. -/
theorem typing_stored_under_typing {σ : Type} (state_table : MatrixRoomStateEventTable)
    (json_event_obj : JsonObject) (callback : Option (MatrixStateUpdateCallback σ))
    (user_data : σ) (content : JsonObject)
    (htype : matrix_json_object_get_string_member json_event_obj "type" = some "m.typing")
    (hcontent : matrix_json_object_get_object_member json_event_obj "content" = some content) :
    matrix_statetable_get_event
        (matrix_statetable_update state_table json_event_obj callback user_data).1
        "m.typing" "typing" =
      some { event_type := "m.typing", sender := some "", content := content } ∧
    ∀ (t k : String), ¬ (t = "m.typing" ∧ k = "typing") →
      matrix_statetable_get_event
          (matrix_statetable_update state_table json_event_obj callback user_data).1 t k =
        matrix_statetable_get_event state_table t k := by
  have hf := update_fields_of_typing json_event_obj content htype hcontent
  exact ⟨get_event_update_self _ _ _ _ _ _ _ _ hf,
    fun t k hne => get_event_update_other _ _ _ _ _ _ _ _ hf t k hne⟩

/-- A typing event sent with the state key `ignored` and the sender `@x:y`
is read back under `typing` with the sender `""`. -/
theorem typing_stored_under_typing_witness :
    matrix_statetable_get_event
        (matrix_statetable_update matrix_statetable_new
          (raw_state_event "m.typing" "ignored" "@x:y" [("user_ids", JsonNode.arr [])])
          (none : Option (MatrixStateUpdateCallback Unit)) ()).1
        "m.typing" "typing" =
      some { event_type := "m.typing", sender := some "",
             content := [("user_ids", JsonNode.arr [])] } ∧
    ∀ (t k : String), ¬ (t = "m.typing" ∧ k = "typing") →
      matrix_statetable_get_event
          (matrix_statetable_update matrix_statetable_new
            (raw_state_event "m.typing" "ignored" "@x:y" [("user_ids", JsonNode.arr [])])
            (none : Option (MatrixStateUpdateCallback Unit)) ()).1 t k =
        matrix_statetable_get_event matrix_statetable_new t k :=
  typing_stored_under_typing matrix_statetable_new
    (raw_state_event "m.typing" "ignored" "@x:y" [("user_ids", JsonNode.arr [])]) none ()
    [("user_ids", JsonNode.arr [])] (by decide) rfl

/-- C4, as stated, fails: the membership event of `@a:x` with the empty
string as its sender is accepted on the empty table: the callback runs once
and the event is stored, with sender `""`. -/
theorem empty_sender_accepted :
    matrix_json_object_get_string_member
        (raw_state_event "m.room.member" "@a:x" "" [("membership", JsonNode.str "join")])
        "sender" = some "" ∧
    matrix_statetable_get_event matrix_statetable_new "m.room.member" "@a:x" = none ∧
    (matrix_statetable_get_event
        (matrix_statetable_update matrix_statetable_new
          (raw_state_event "m.room.member" "@a:x" "" [("membership", JsonNode.str "join")])
          (some record_call) []).1 "m.room.member" "@a:x").isSome = true ∧
    (matrix_statetable_update matrix_statetable_new
        (raw_state_event "m.room.member" "@a:x" "" [("membership", JsonNode.str "join")])
        (some record_call) []).2.length = 1 := by
  have hf : matrix_statetable_update_fields
      (raw_state_event "m.room.member" "@a:x" "" [("membership", JsonNode.str "join")]) =
      some ("m.room.member", "@a:x", "", [("membership", JsonNode.str "join")]) :=
    update_fields_of_valid _ _ _ _ _ (by decide) (by decide) (by decide) (by decide) rfl
  refine ⟨by decide, rfl, ?_, ?_⟩
  · rw [get_event_update_self _ _ _ _ _ _ _ _ hf]
    rfl
  · rw [update_record_call _ _ _ _ _ _ _ hf]
    rfl

/-- C4, amended. An empty sender counts as present under validation: for a
raw event of a type other than `m.typing` whose sender is the empty string
and whose type, state key and content are present,
`matrix_statetable_update` stores the event, with sender `""`, under its type
and state key, and invokes the callback exactly once, with the event stored
before and the new event. -/
theorem empty_sender_stored (state_table : MatrixRoomStateEventTable)
    (json_event_obj : JsonObject) (event_type state_key : String) (content : JsonObject)
    (htype : matrix_json_object_get_string_member json_event_obj "type" = some event_type)
    (hnt : event_type ≠ "m.typing")
    (hkey : matrix_json_object_get_string_member json_event_obj "state_key" = some state_key)
    (hsender : matrix_json_object_get_string_member json_event_obj "sender" = some "")
    (hcontent : matrix_json_object_get_object_member json_event_obj "content" = some content) :
    (∀ (σ : Type) (callback : Option (MatrixStateUpdateCallback σ)) (user_data : σ),
      matrix_statetable_get_event
          (matrix_statetable_update state_table json_event_obj callback user_data).1
          event_type state_key =
        some { event_type := event_type, sender := some "", content := content }) ∧
    ∃ call : HookCall,
      (matrix_statetable_update state_table json_event_obj (some record_call) []).2 = [call] ∧
      call.event_type = event_type ∧ call.state_key = state_key ∧
      call.old_event = matrix_statetable_get_event state_table event_type state_key ∧
      call.event = { event_type := event_type, sender := some "", content := content } := by
  have hf := update_fields_of_valid json_event_obj event_type state_key "" content
    htype hnt hkey hsender hcontent
  refine ⟨fun σ callback user_data => get_event_update_self _ _ _ _ _ _ _ _ hf, ?_⟩
  rw [update_record_call _ _ _ _ _ _ _ hf]
  exact ⟨_, rfl, rfl, rfl, rfl, rfl⟩

/-- The membership event of `@a:x` with an empty sender is stored in the
empty table and reported to the callback. -/
theorem empty_sender_stored_witness :
    (∀ (σ : Type) (callback : Option (MatrixStateUpdateCallback σ)) (user_data : σ),
      matrix_statetable_get_event
          (matrix_statetable_update matrix_statetable_new
            (raw_state_event "m.room.member" "@a:x" "" [("membership", JsonNode.str "join")])
            callback user_data).1
          "m.room.member" "@a:x" =
        some { event_type := "m.room.member", sender := some "",
               content := [("membership", JsonNode.str "join")] }) ∧
    ∃ call : HookCall,
      (matrix_statetable_update matrix_statetable_new
        (raw_state_event "m.room.member" "@a:x" "" [("membership", JsonNode.str "join")])
        (some record_call) []).2 = [call] ∧
      call.event_type = "m.room.member" ∧ call.state_key = "@a:x" ∧
      call.old_event =
        matrix_statetable_get_event matrix_statetable_new "m.room.member" "@a:x" ∧
      call.event = { event_type := "m.room.member", sender := some "",
                     content := [("membership", JsonNode.str "join")] } :=
  empty_sender_stored matrix_statetable_new
    (raw_state_event "m.room.member" "@a:x" "" [("membership", JsonNode.str "join")])
    "m.room.member" "@a:x" [("membership", JsonNode.str "join")]
    (by decide) (by decide) (by decide) (by decide) rfl

/-- C5. Lookup misses: `matrix_statetable_get_event` returns absent for a type
that is not a key of the table and for a state key that is not a key of the
inner table of a known type; on the table returned by `matrix_statetable_new`
it is absent for every pair, and on a table reached from it by a sequence of
updates it is absent for every pair that is not the normalised type and state
key of an accepted update of the sequence. -/
theorem get_event_absent {σ : Type}
    (calls : List (JsonObject × Option (MatrixStateUpdateCallback σ))) (user_data : σ)
    (t k : String)
    (h : ∀ call ∈ calls, ∀ (sender : String) (content : JsonObject),
      matrix_statetable_update_fields call.1 ≠ some (t, k, sender, content)) :
    (∀ state_table : MatrixRoomStateEventTable,
      g_hash_table_lookup state_table t = none →
        matrix_statetable_get_event state_table t k = none) ∧
    (∀ (state_table : MatrixRoomStateEventTable) (tmp : GHashTable MatrixRoomEvent),
      g_hash_table_lookup state_table t = some tmp → g_hash_table_lookup tmp k = none →
        matrix_statetable_get_event state_table t k = none) ∧
    (∀ t0 k0 : String, matrix_statetable_get_event matrix_statetable_new t0 k0 = none) ∧
    matrix_statetable_get_event
      (matrix_statetable_update_all matrix_statetable_new calls user_data).1 t k = none := by
  refine ⟨?_, ?_, fun t0 k0 => rfl, ?_⟩
  · intro state_table hl
    simp [matrix_statetable_get_event, hl]
  · intro state_table tmp hl hk
    simp [matrix_statetable_get_event, hl, hk]
  · rw [get_event_update_all_other t k calls _ _ h]
    rfl

/-- After the name of the room is set and a typing event is sent with the
state key `ignored`, nothing is stored under (`m.typing`, `ignored`). -/
theorem get_event_absent_witness :
    (∀ state_table : MatrixRoomStateEventTable,
      g_hash_table_lookup state_table "m.typing" = none →
        matrix_statetable_get_event state_table "m.typing" "ignored" = none) ∧
    (∀ (state_table : MatrixRoomStateEventTable) (tmp : GHashTable MatrixRoomEvent),
      g_hash_table_lookup state_table "m.typing" = some tmp →
        g_hash_table_lookup tmp "ignored" = none →
        matrix_statetable_get_event state_table "m.typing" "ignored" = none) ∧
    (∀ t0 k0 : String, matrix_statetable_get_event matrix_statetable_new t0 k0 = none) ∧
    matrix_statetable_get_event
      (matrix_statetable_update_all matrix_statetable_new
        [(raw_state_event "m.room.name" "" "@a:x" [("name", JsonNode.str "Demo Room")],
            (none : Option (MatrixStateUpdateCallback Unit))),
          (raw_state_event "m.typing" "ignored" "@x:y" [("user_ids", JsonNode.arr [])],
            none)] ()).1 "m.typing" "ignored" = none :=
  get_event_absent
    [(raw_state_event "m.room.name" "" "@a:x" [("name", JsonNode.str "Demo Room")], none),
      (raw_state_event "m.typing" "ignored" "@x:y" [("user_ids", JsonNode.arr [])], none)]
    () "m.typing" "ignored"
    (by
      intro call hcall sender content
      simp only [List.mem_cons, List.mem_singleton, List.not_mem_nil, or_false] at hcall
      rcases hcall with rfl | rfl
      · have hf : matrix_statetable_update_fields
            (raw_state_event "m.room.name" "" "@a:x" [("name", JsonNode.str "Demo Room")]) =
            some ("m.room.name", "", "@a:x", [("name", JsonNode.str "Demo Room")]) :=
          update_fields_of_valid _ _ _ _ _ (by decide) (by decide) (by decide) (by decide) rfl
        rw [hf]
        intro heq
        have h1 : "m.room.name" = "m.typing" := congrArg (fun f => f.1) (Option.some.inj heq)
        exact absurd h1 (by decide)
      · have hf : matrix_statetable_update_fields
            (raw_state_event "m.typing" "ignored" "@x:y" [("user_ids", JsonNode.arr [])]) =
            some ("m.typing", "typing", "", [("user_ids", JsonNode.arr [])]) :=
          update_fields_of_typing _ _ (by decide) rfl
        rw [hf]
        intro heq
        have h1 : "typing" = "ignored" := congrArg (fun f => f.2.1) (Option.some.inj heq)
        exact absurd h1 (by decide))

/-! ## Name resolution lemmas -/

theorem room_name_of_name_does_not_win (state_table : MatrixRoomStateEventTable)
    (alias_only : Bool) (h : name_does_not_win state_table alias_only = true) :
    matrix_statetable_room_name state_table alias_only = none := by
  unfold name_does_not_win at h
  unfold matrix_statetable_room_name
  cases alias_only with
  | true => cases matrix_statetable_get_event state_table "m.room.name" "" <;> simp
  | false =>
    cases hev : matrix_statetable_get_event state_table "m.room.name" "" with
    | none => rfl
    | some event =>
      cases hn : matrix_json_object_get_string_member event.content "name" with
      | none => simp [hn]
      | some name =>
        simp only [hev, hn, Bool.false_or, beq_iff_eq] at h
        simp [hn, h]

theorem canonical_alias_of_no_canonical_alias (state_table : MatrixRoomStateEventTable)
    (h : no_canonical_alias state_table = true) :
    matrix_statetable_canonical_alias state_table = none := by
  unfold no_canonical_alias at h
  unfold matrix_statetable_canonical_alias
  cases hev : matrix_statetable_get_event state_table "m.room.canonical_alias" "" with
  | none => rfl
  | some event =>
    rw [hev] at h
    simpa using h

/-- A non-empty name stored for the room is the result when `alias_only` is
not set. -/
theorem get_room_alias_new_of_name (state_table : MatrixRoomStateEventTable)
    (event : MatrixRoomEvent) (n : String)
    (hevent : matrix_statetable_get_event state_table "m.room.name" "" = some event)
    (hname : matrix_json_object_get_string_member event.content "name" = some n)
    (hn : n ≠ "") :
    matrix_statetable_get_room_alias_new state_table false = some n := by
  simp [matrix_statetable_get_room_alias_new, matrix_statetable_room_name, hevent, hname, hn]

/-- When neither the room name nor the canonical alias matches, the result is
that of the scan of the `m.room.aliases` entries. -/
theorem get_room_alias_new_of_fall_through (state_table : MatrixRoomStateEventTable)
    (alias_only : Bool) (hname : name_does_not_win state_table alias_only = true)
    (hcanon : no_canonical_alias state_table = true) :
    matrix_statetable_get_room_alias_new state_table alias_only =
      matrix_statetable_any_alias state_table := by
  simp only [matrix_statetable_get_room_alias_new,
    room_name_of_name_does_not_win _ _ hname, canonical_alias_of_no_canonical_alias _ hcanon]

/-- One round of the scan: the entry is returned from when element 0 of its
`aliases` array is a string, and skipped otherwise. -/
theorem scan_aliases_cons (key : String) (event : MatrixRoomEvent)
    (rest : GHashTable MatrixRoomEvent) :
    matrix_statetable_scan_aliases ((key, event) :: rest) =
      match first_alias event with
      | some tmpname => some tmpname
      | none => matrix_statetable_scan_aliases rest := by
  simp only [matrix_statetable_scan_aliases, first_alias]
  cases harr : matrix_json_object_get_array_member event.content "aliases" with
  | none => rfl
  | some array =>
    cases array with
    | nil => simp [json_array_get_length, matrix_json_array_get_string_element]
    | cons first more => simp [json_array_get_length]

theorem first_string_alias_entry_cons (key : String) (event : MatrixRoomEvent)
    (rest : GHashTable MatrixRoomEvent) :
    first_string_alias_entry ((key, event) :: rest) =
      match first_alias event with
      | some tmpname => some tmpname
      | none => first_string_alias_entry rest := by
  unfold first_string_alias_entry
  cases hfa : first_alias event with
  | none => simp [List.find?, hfa]
  | some tmpname => simp [List.find?, hfa]

/-- The scan returns the string at element 0 of the first entry that has one. -/
theorem scan_aliases_eq_first_string_alias_entry (entries : GHashTable MatrixRoomEvent) :
    matrix_statetable_scan_aliases entries = first_string_alias_entry entries := by
  induction entries with
  | nil => rfl
  | cons entry rest ih =>
    obtain ⟨key, event⟩ := entry
    rw [scan_aliases_cons, first_string_alias_entry_cons, ih]

/-! ## Properties of the name resolution -/

/-- C6. Room name wins: when the event stored under (`m.room.name`, `""`) has
a content field `name` that is a non-empty string `n`,
`matrix_statetable_get_room_alias_new` without `alias_only` returns `n`,
whatever the table holds for `m.room.canonical_alias` and `m.room.aliases`
and in whatever order its entries are enumerated. -/
theorem room_name_wins (state_table : MatrixRoomStateEventTable) (event : MatrixRoomEvent)
    (n : String)
    (hevent : matrix_statetable_get_event state_table "m.room.name" "" = some event)
    (hname : matrix_json_object_get_string_member event.content "name" = some n)
    (hn : n ≠ "") :
    matrix_statetable_get_room_alias_new state_table false = some n :=
  get_room_alias_new_of_name state_table event n hevent hname hn

/-- A room named `Demo Room` that also has a canonical alias and an alias
resolves to its name. -/
theorem room_name_wins_witness :
    matrix_statetable_get_room_alias_new
      [("m.room.aliases",
          [("y", { event_type := "m.room.aliases", sender := some "@a:y",
                   content := [("aliases", JsonNode.arr [JsonNode.str "#demo:y"])] })]),
        ("m.room.canonical_alias",
          [("", { event_type := "m.room.canonical_alias", sender := some "@a:x",
                  content := [("alias", JsonNode.str "#canon:x")] })]),
        ("m.room.name",
          [("", { event_type := "m.room.name", sender := some "@a:x",
                  content := [("name", JsonNode.str "Demo Room")] })])]
      false = some "Demo Room" :=
  room_name_wins _
    { event_type := "m.room.name", sender := some "@a:x",
      content := [("name", JsonNode.str "Demo Room")] }
    "Demo Room" rfl (by decide) (by decide)

/-- C7. Canonical alias wins over aliases, even when empty: when the room
name does not win (`alias_only` is set, or nothing is stored under
(`m.room.name`, `""`), or its `name` field is absent or empty) and the event
stored under (`m.room.canonical_alias`, `""`) has a content field `alias`
that is a string `a`, the empty string included,
`matrix_statetable_get_room_alias_new` returns `a`, whatever the table holds
for `m.room.aliases`. -/
theorem canonical_alias_wins (state_table : MatrixRoomStateEventTable) (alias_only : Bool)
    (event : MatrixRoomEvent) (a : String)
    (hname : name_does_not_win state_table alias_only = true)
    (hevent : matrix_statetable_get_event state_table "m.room.canonical_alias" "" = some event)
    (halias : matrix_json_object_get_string_member event.content "alias" = some a) :
    matrix_statetable_get_room_alias_new state_table alias_only = some a := by
  simp [matrix_statetable_get_room_alias_new, room_name_of_name_does_not_win _ _ hname,
    matrix_statetable_canonical_alias, hevent, halias]

/-- A room with an empty name, an empty canonical alias and an alias resolves
to the empty canonical alias. -/
theorem canonical_alias_wins_witness :
    matrix_statetable_get_room_alias_new
      [("m.room.aliases",
          [("y", { event_type := "m.room.aliases", sender := some "@a:y",
                   content := [("aliases", JsonNode.arr [JsonNode.str "#demo:y"])] })]),
        ("m.room.canonical_alias",
          [("", { event_type := "m.room.canonical_alias", sender := some "@a:x",
                  content := [("alias", JsonNode.str "")] })]),
        ("m.room.name",
          [("", { event_type := "m.room.name", sender := some "@a:x",
                  content := [("name", JsonNode.str "")] })])]
      false = some "" :=
  canonical_alias_wins _ false
    { event_type := "m.room.canonical_alias", sender := some "@a:x",
      content := [("alias", JsonNode.str "")] }
    "" (by decide) rfl (by decide)

/-- C8, as stated, fails: with the entry of server `x` holding the array `[1]`
and the entry of server `y` holding `["#demo:y"]`, the first entry whose
array is non-empty is that of `x`, whose first element is no string; the code
skips it and returns the alias of `y`. -/
theorem nonempty_aliases_entry_skipped :
    name_does_not_win
      [("m.room.aliases",
        [("x", { event_type := "m.room.aliases", sender := some "@a:x",
                 content := [("aliases", JsonNode.arr [JsonNode.int 1])] }),
         ("y", { event_type := "m.room.aliases", sender := some "@a:y",
                 content := [("aliases", JsonNode.arr [JsonNode.str "#demo:y"])] })])]
      false = true ∧
    no_canonical_alias
      [("m.room.aliases",
        [("x", { event_type := "m.room.aliases", sender := some "@a:x",
                 content := [("aliases", JsonNode.arr [JsonNode.int 1])] }),
         ("y", { event_type := "m.room.aliases", sender := some "@a:y",
                 content := [("aliases", JsonNode.arr [JsonNode.str "#demo:y"])] })])]
      = true ∧
    ((List.find? (fun entry => has_nonempty_aliases entry.2)
      [("x", { event_type := "m.room.aliases", sender := some "@a:x",
               content := [("aliases", JsonNode.arr [JsonNode.int 1])] }),
       ("y", { event_type := "m.room.aliases", sender := some "@a:y",
               content := [("aliases", JsonNode.arr [JsonNode.str "#demo:y"])] })]).map
      (fun entry => entry.1)) = some "x" ∧
    first_nonempty_aliases_entry
      [("x", { event_type := "m.room.aliases", sender := some "@a:x",
               content := [("aliases", JsonNode.arr [JsonNode.int 1])] }),
       ("y", { event_type := "m.room.aliases", sender := some "@a:y",
               content := [("aliases", JsonNode.arr [JsonNode.str "#demo:y"])] })]
      = none ∧
    matrix_statetable_get_room_alias_new
      [("m.room.aliases",
        [("x", { event_type := "m.room.aliases", sender := some "@a:x",
                 content := [("aliases", JsonNode.arr [JsonNode.int 1])] }),
         ("y", { event_type := "m.room.aliases", sender := some "@a:y",
                 content := [("aliases", JsonNode.arr [JsonNode.str "#demo:y"])] })])]
      false = some "#demo:y" := by
  refine ⟨by decide, by decide, by decide, by decide, by decide⟩

/-- C8, amended. Aliases step: when neither the room name nor the canonical
alias matches, then for every enumeration order of the inner mapping of
`m.room.aliases`, `matrix_statetable_get_room_alias_new` returns element 0 of
the `aliases` array of the first enumerated entry whose array has a string as
element 0, and absent when there is no such entry; an entry whose array is
missing, empty or starts with something else than a string is skipped. -/
theorem aliases_step (state_table : MatrixRoomStateEventTable) (alias_only : Bool)
    (entries : GHashTable MatrixRoomEvent)
    (hname : name_does_not_win state_table alias_only = true)
    (hcanon : no_canonical_alias state_table = true)
    (hentries : g_hash_table_lookup state_table "m.room.aliases" = some entries) :
    matrix_statetable_get_room_alias_new state_table alias_only =
      first_string_alias_entry entries := by
  rw [get_room_alias_new_of_fall_through _ _ hname hcanon]
  simp only [matrix_statetable_any_alias, hentries]
  exact scan_aliases_eq_first_string_alias_entry entries

/-- With entries holding `[]`, `[1]` and `["#demo:y", "#other:y"]`, in that
order, the result is `#demo:y`. -/
theorem aliases_step_witness :
    matrix_statetable_get_room_alias_new
      [("m.room.aliases",
        [("w", { event_type := "m.room.aliases", sender := some "@a:w",
                 content := [("aliases", JsonNode.arr [])] }),
         ("x", { event_type := "m.room.aliases", sender := some "@a:x",
                 content := [("aliases", JsonNode.arr [JsonNode.int 1])] }),
         ("y", { event_type := "m.room.aliases", sender := some "@a:y",
                 content := [("aliases",
                   JsonNode.arr [JsonNode.str "#demo:y", JsonNode.str "#other:y"])] })])]
      true =
    first_string_alias_entry
      [("w", { event_type := "m.room.aliases", sender := some "@a:w",
               content := [("aliases", JsonNode.arr [])] }),
       ("x", { event_type := "m.room.aliases", sender := some "@a:x",
               content := [("aliases", JsonNode.arr [JsonNode.int 1])] }),
       ("y", { event_type := "m.room.aliases", sender := some "@a:y",
               content := [("aliases",
                 JsonNode.arr [JsonNode.str "#demo:y", JsonNode.str "#other:y"])] })] ∧
    first_string_alias_entry
      [("w", { event_type := "m.room.aliases", sender := some "@a:w",
               content := [("aliases", JsonNode.arr [])] }),
       ("x", { event_type := "m.room.aliases", sender := some "@a:x",
               content := [("aliases", JsonNode.arr [JsonNode.int 1])] }),
       ("y", { event_type := "m.room.aliases", sender := some "@a:y",
               content := [("aliases",
                 JsonNode.arr [JsonNode.str "#demo:y", JsonNode.str "#other:y"])] })] =
      some "#demo:y" :=
  ⟨aliases_step _ true _ (by decide) (by decide) rfl, by decide⟩

/-- The scan over entries that either hold an empty `aliases` array or an
array starting with the string `a`, one of the latter kind at least. -/
theorem scan_aliases_of_single_alias (a : String) :
    ∀ entries : GHashTable MatrixRoomEvent,
    (∀ entry ∈ entries,
      matrix_json_object_get_array_member entry.2.content "aliases" = some [] ∨
      ∃ more, matrix_json_object_get_array_member entry.2.content "aliases" =
        some (JsonNode.str a :: more)) →
    (∃ entry ∈ entries, ∃ more,
      matrix_json_object_get_array_member entry.2.content "aliases" =
        some (JsonNode.str a :: more)) →
    matrix_statetable_scan_aliases entries = some a := by
  intro entries
  induction entries with
  | nil =>
    rintro _ ⟨entry, hmem, _⟩
    cases hmem
  | cons head rest ih =>
    intro hall hex
    obtain ⟨key, event⟩ := head
    rw [scan_aliases_cons]
    rcases hall (key, event) (List.mem_cons_self _ _) with hempty | ⟨more, hfull⟩
    · have hfa : first_alias event = none := by
        simp only [first_alias]
        rw [hempty]
        rfl
      rw [hfa]
      apply ih (fun entry hmem => hall entry (List.mem_cons_of_mem _ hmem))
      obtain ⟨entry, hmem, more, hfull⟩ := hex
      rcases List.mem_cons.mp hmem with rfl | hrest
      · rw [hempty] at hfull
        cases hfull
      · exact ⟨entry, hrest, more, hfull⟩
    · have hfa : first_alias event = some a := by
        simp only [first_alias]
        rw [hfull]
        rfl
      rw [hfa]

/-- Replacing the inner mapping of one type leaves the lookups of every other
type as they were. -/
theorem get_event_insert_other (state_table : MatrixRoomStateEventTable)
    (event_type : String) (entries : GHashTable MatrixRoomEvent) (t k : String)
    (h : t ≠ event_type) :
    matrix_statetable_get_event (g_hash_table_insert state_table event_type entries) t k =
      matrix_statetable_get_event state_table t k := by
  simp only [matrix_statetable_get_event, g_hash_table_lookup_insert_other _ _ _ _ h]

/-- C9. Order independence when only one contributor has an alias: when the
canonical alias does not match, one `m.room.aliases` entry has an `aliases`
array whose first element is the string `a` and every other entry has an
empty `aliases` array, `matrix_statetable_get_room_alias_new` with
`alias_only` returns `a` on the table as it is and on the table with the
entries of `m.room.aliases` enumerated in any other order. -/
theorem single_alias_order_independent (state_table : MatrixRoomStateEventTable)
    (entries : GHashTable MatrixRoomEvent) (key : String) (event : MatrixRoomEvent)
    (a : String) (more : List JsonNode)
    (hcanon : no_canonical_alias state_table = true)
    (hentries : g_hash_table_lookup state_table "m.room.aliases" = some entries)
    (hmem : (key, event) ∈ entries)
    (hevent : matrix_json_object_get_array_member event.content "aliases" =
      some (JsonNode.str a :: more))
    (hothers : ∀ entry ∈ entries, entry ≠ (key, event) →
      matrix_json_object_get_array_member entry.2.content "aliases" = some []) :
    matrix_statetable_get_room_alias_new state_table true = some a ∧
    ∀ order : GHashTable MatrixRoomEvent, List.Perm order entries →
      matrix_statetable_get_room_alias_new
        (g_hash_table_insert state_table "m.room.aliases" order) true = some a := by
  have hall : ∀ entry ∈ entries,
      matrix_json_object_get_array_member entry.2.content "aliases" = some [] ∨
      ∃ more, matrix_json_object_get_array_member entry.2.content "aliases" =
        some (JsonNode.str a :: more) := by
    intro entry hin
    by_cases he : entry = (key, event)
    · subst he
      exact Or.inr ⟨more, hevent⟩
    · exact Or.inl (hothers entry hin he)
  constructor
  · rw [get_room_alias_new_of_fall_through state_table true rfl hcanon]
    simp only [matrix_statetable_any_alias, hentries]
    exact scan_aliases_of_single_alias a entries hall ⟨(key, event), hmem, more, hevent⟩
  · intro order horder
    have hcanon2 : no_canonical_alias
        (g_hash_table_insert state_table "m.room.aliases" order) = true := by
      unfold no_canonical_alias at hcanon ⊢
      rw [get_event_insert_other _ _ _ _ _ (by decide)]
      exact hcanon
    rw [get_room_alias_new_of_fall_through _ true rfl hcanon2]
    simp only [matrix_statetable_any_alias, g_hash_table_lookup_insert_self]
    exact scan_aliases_of_single_alias a order
      (fun entry hin => hall entry (horder.mem_iff.mp hin))
      ⟨(key, event), horder.mem_iff.mpr hmem, more, hevent⟩

/-- Two `m.room.aliases` entries, one with `[]` and one with `["#demo:y"]`:
the result is `#demo:y` in the one enumeration order and in the other. -/
theorem single_alias_order_independent_witness :
    matrix_statetable_get_room_alias_new
      [("m.room.aliases",
        [("x", { event_type := "m.room.aliases", sender := some "@a:x",
                 content := [("aliases", JsonNode.arr [])] }),
         ("y", { event_type := "m.room.aliases", sender := some "@a:y",
                 content := [("aliases", JsonNode.arr [JsonNode.str "#demo:y"])] })])]
      true = some "#demo:y" ∧
    ∀ order : GHashTable MatrixRoomEvent,
      List.Perm order
        [("x", { event_type := "m.room.aliases", sender := some "@a:x",
                 content := [("aliases", JsonNode.arr [])] }),
         ("y", { event_type := "m.room.aliases", sender := some "@a:y",
                 content := [("aliases", JsonNode.arr [JsonNode.str "#demo:y"])] })] →
      matrix_statetable_get_room_alias_new
        (g_hash_table_insert
          [("m.room.aliases",
            [("x", { event_type := "m.room.aliases", sender := some "@a:x",
                     content := [("aliases", JsonNode.arr [])] }),
             ("y", { event_type := "m.room.aliases", sender := some "@a:y",
                     content := [("aliases", JsonNode.arr [JsonNode.str "#demo:y"])] })])]
          "m.room.aliases" order) true = some "#demo:y" :=
  single_alias_order_independent _ _ "y"
    { event_type := "m.room.aliases", sender := some "@a:y",
      content := [("aliases", JsonNode.arr [JsonNode.str "#demo:y"])] }
    "#demo:y" [] (by decide) rfl
    (List.mem_cons_of_mem _ (List.mem_cons_self _ _)) rfl
    (by
      intro entry hin hne
      rcases List.mem_cons.mp hin with rfl | hin2
      · rfl
      · rcases List.mem_cons.mp hin2 with rfl | hin3
        · exact absurd rfl hne
        · cases hin3)

/-- A raw event built by `raw_state_event` for a type other than `m.typing`
is accepted with the fields it was built from. -/
theorem update_fields_raw_state_event (event_type state_key sender : String)
    (content : JsonObject) (hnt : event_type ≠ "m.typing") :
    matrix_statetable_update_fields (raw_state_event event_type state_key sender content) =
      some (event_type, state_key, sender, content) := by
  apply update_fields_of_valid _ _ _ _ _ _ hnt <;>
    simp [raw_state_event, matrix_json_object_get_string_member,
      matrix_json_object_get_object_member, json_object_get_member]

/-- C10. End to end, setting a name: after an update with the raw event of
type `m.room.name`, state key `""`, a non-empty sender `s` and content
`{name: n}` with `n` non-empty, `matrix_statetable_get_event` at
(`m.room.name`, `""`) returns an event whose content has the name `n`, and
`matrix_statetable_get_room_alias_new` without `alias_only` returns `n`. -/
theorem set_room_name {σ : Type} (state_table : MatrixRoomStateEventTable) (s n : String)
    (callback : Option (MatrixStateUpdateCallback σ)) (user_data : σ)
    (_hs : s ≠ "") (hn : n ≠ "") :
    (∃ event : MatrixRoomEvent,
      matrix_statetable_get_event
        (matrix_statetable_update state_table
          (raw_state_event "m.room.name" "" s [("name", JsonNode.str n)])
          callback user_data).1 "m.room.name" "" = some event ∧
      event.event_type = "m.room.name" ∧ event.sender = some s ∧
      matrix_json_object_get_string_member event.content "name" = some n) ∧
    matrix_statetable_get_room_alias_new
      (matrix_statetable_update state_table
        (raw_state_event "m.room.name" "" s [("name", JsonNode.str n)])
        callback user_data).1 false = some n := by
  have hf := update_fields_raw_state_event "m.room.name" "" s [("name", JsonNode.str n)]
    (by decide)
  have hget := get_event_update_self state_table _ callback user_data _ _ _ _ hf
  have hname : matrix_json_object_get_string_member [("name", JsonNode.str n)] "name" =
      some n := by
    simp [matrix_json_object_get_string_member, json_object_get_member]
  exact ⟨⟨_, hget, rfl, rfl, hname⟩, get_room_alias_new_of_name _ _ n hget hname hn⟩

/-- Setting the name `Demo Room` as `@a:x` on the empty table. -/
theorem set_room_name_witness :
    (∃ event : MatrixRoomEvent,
      matrix_statetable_get_event
        (matrix_statetable_update matrix_statetable_new
          (raw_state_event "m.room.name" "" "@a:x" [("name", JsonNode.str "Demo Room")])
          (none : Option (MatrixStateUpdateCallback Unit)) ()).1 "m.room.name" "" =
        some event ∧
      event.event_type = "m.room.name" ∧ event.sender = some "@a:x" ∧
      matrix_json_object_get_string_member event.content "name" = some "Demo Room") ∧
    matrix_statetable_get_room_alias_new
      (matrix_statetable_update matrix_statetable_new
        (raw_state_event "m.room.name" "" "@a:x" [("name", JsonNode.str "Demo Room")])
        (none : Option (MatrixStateUpdateCallback Unit)) ()).1 false = some "Demo Room" :=
  set_room_name matrix_statetable_new "@a:x" "Demo Room" none () (by decide) (by decide)

/-! ## More on what an update does -/

/-- An accepted update leaves the inner mapping of every other type as it
was. -/
theorem lookup_update_other_type {σ : Type} (state_table : MatrixRoomStateEventTable)
    (json_event_obj : JsonObject) (callback : Option (MatrixStateUpdateCallback σ))
    (user_data : σ) (event_type state_key sender : String) (content : JsonObject)
    (h : matrix_statetable_update_fields json_event_obj =
      some (event_type, state_key, sender, content))
    (t : String) (hne : t ≠ event_type) :
    g_hash_table_lookup
        (matrix_statetable_update state_table json_event_obj callback user_data).1 t =
      g_hash_table_lookup state_table t := by
  simp only [matrix_statetable_update, h]
  rw [g_hash_table_lookup_insert_other _ _ _ _ hne]
  cases hl : g_hash_table_lookup state_table event_type with
  | none => simp [g_hash_table_lookup_insert_other _ _ _ _ hne]
  | some entry => simp

/-- The inner mapping of the type of an accepted update, after the update: the
one before it (empty when there was none) with the new event inserted. -/
theorem lookup_update_same_type {σ : Type} (state_table : MatrixRoomStateEventTable)
    (json_event_obj : JsonObject) (callback : Option (MatrixStateUpdateCallback σ))
    (user_data : σ) (event_type state_key sender : String) (content : JsonObject)
    (h : matrix_statetable_update_fields json_event_obj =
      some (event_type, state_key, sender, content)) :
    g_hash_table_lookup
        (matrix_statetable_update state_table json_event_obj callback user_data).1
        event_type =
      some (g_hash_table_insert ((g_hash_table_lookup state_table event_type).getD [])
        state_key { event_type := event_type, sender := some sender, content := content }) := by
  simp only [matrix_statetable_update, h, g_hash_table_lookup_insert_self, matrix_event_new]
  cases hl : g_hash_table_lookup state_table event_type <;> rfl

/-- The table as the callback of an accepted update finds it: the table
before the update, with an empty inner mapping for the type when it had none. -/
theorem update_callback_state {σ : Type} (state_table : MatrixRoomStateEventTable)
    (json_event_obj : JsonObject) (cb : MatrixStateUpdateCallback σ) (user_data : σ)
    (event_type state_key sender : String) (content : JsonObject)
    (h : matrix_statetable_update_fields json_event_obj =
      some (event_type, state_key, sender, content)) :
    (matrix_statetable_update state_table json_event_obj (some cb) user_data).2 =
      cb (match g_hash_table_lookup state_table event_type with
          | none => g_hash_table_insert state_table event_type []
          | some _ => state_table)
        event_type state_key
        (matrix_statetable_get_event state_table event_type state_key)
        { event_type := event_type, sender := some sender, content := content }
        user_data := by
  simp only [matrix_statetable_update, h, matrix_statetable_get_event, matrix_event_new]
  cases hl : g_hash_table_lookup state_table event_type <;> rfl

/-- An empty inner mapping created for a type that had none changes no
lookup. -/
theorem get_event_vivified (state_table : MatrixRoomStateEventTable) (event_type : String)
    (t k : String) :
    matrix_statetable_get_event
        (match g_hash_table_lookup state_table event_type with
         | none => g_hash_table_insert state_table event_type []
         | some _ => state_table) t k =
      matrix_statetable_get_event state_table t k := by
  cases hl : g_hash_table_lookup state_table event_type with
  | some entry => rfl
  | none =>
    simp only [matrix_statetable_get_event]
    by_cases ht : t = event_type
    · subst ht
      rw [g_hash_table_lookup_insert_self, hl]
      rfl
    · rw [g_hash_table_lookup_insert_other _ _ _ _ ht]

/-- Validation accepts exactly the raw events that the specification's
condition describes. -/
theorem update_fields_isSome (json_event_obj : JsonObject) :
    (matrix_statetable_update_fields json_event_obj).isSome =
      update_is_accepted json_event_obj := by
  unfold matrix_statetable_update_fields update_is_accepted g_strcmp0_eq
  cases ht : matrix_json_object_get_string_member json_event_obj "type" with
  | none => simp
  | some event_type =>
    cases hc : matrix_json_object_get_object_member json_event_obj "content" with
    | none =>
      simp only [Option.isSome_some, Option.isSome_none, Bool.and_false, Bool.false_and]
      split <;> simp_all
    | some content =>
      by_cases hty : event_type = "m.typing"
      · simp [hty]
      · cases hk : matrix_json_object_get_string_member json_event_obj "state_key" <;>
          cases hs : matrix_json_object_get_string_member json_event_obj "sender" <;>
          simp [hty]

/-- A typing event is accepted only under the state key `typing` and the
sender `""`. -/
theorem update_fields_typing_inv (json_event_obj : JsonObject) (state_key sender : String)
    (content : JsonObject)
    (h : matrix_statetable_update_fields json_event_obj =
      some ("m.typing", state_key, sender, content)) :
    state_key = "typing" ∧ sender = "" := by
  cases ht : matrix_json_object_get_string_member json_event_obj "type" with
  | none =>
    rw [update_fields_of_no_type_or_content _ (Or.inl ht)] at h
    cases h
  | some event_type =>
    cases hc : matrix_json_object_get_object_member json_event_obj "content" with
    | none =>
      rw [update_fields_of_no_type_or_content _ (Or.inr hc)] at h
      cases h
    | some content0 =>
      by_cases hty : event_type = "m.typing"
      · subst hty
        rw [update_fields_of_typing _ _ ht hc] at h
        simp only [Option.some.injEq, Prod.mk.injEq] at h
        exact ⟨h.2.1.symm, h.2.2.1.symm⟩
      · cases hk : matrix_json_object_get_string_member json_event_obj "state_key" with
        | none =>
          rw [update_fields_of_no_key_or_sender _ (by rw [ht]; simpa using hty)
            (Or.inl hk)] at h
          cases h
        | some key0 =>
          cases hs : matrix_json_object_get_string_member json_event_obj "sender" with
          | none =>
            rw [update_fields_of_no_key_or_sender _ (by rw [ht]; simpa using hty)
              (Or.inr hs)] at h
            cases h
          | some sender0 =>
            rw [update_fields_of_valid _ _ _ _ _ ht hty hk hs hc] at h
            simp only [Option.some.injEq, Prod.mk.injEq] at h
            exact absurd h.1 hty

/-! ## Further properties -/

/-- C11. End to end, clearing a name: on a table with nothing stored under
(`m.room.canonical_alias`, `""`) and no `m.room.aliases` entries, after a
valid update of (`m.room.name`, `""`) with content `{name: ""}`, whatever
name was stored before, `matrix_statetable_get_room_alias_new` without
`alias_only` returns absent. -/
theorem clear_room_name {σ : Type} (state_table : MatrixRoomStateEventTable)
    (json_event_obj : JsonObject) (callback : Option (MatrixStateUpdateCallback σ))
    (user_data : σ) (sender : String)
    (htype : matrix_json_object_get_string_member json_event_obj "type" = some "m.room.name")
    (hkey : matrix_json_object_get_string_member json_event_obj "state_key" = some "")
    (hsender : matrix_json_object_get_string_member json_event_obj "sender" = some sender)
    (hcontent : matrix_json_object_get_object_member json_event_obj "content" =
      some [("name", JsonNode.str "")])
    (hcanon : matrix_statetable_get_event state_table "m.room.canonical_alias" "" = none)
    (haliases : ∀ entries, g_hash_table_lookup state_table "m.room.aliases" = some entries →
      entries = []) :
    matrix_statetable_get_room_alias_new
      (matrix_statetable_update state_table json_event_obj callback user_data).1 false =
      none := by
  have hf := update_fields_of_valid json_event_obj "m.room.name" "" sender
    [("name", JsonNode.str "")] htype (by decide) hkey hsender hcontent
  have hget := get_event_update_self state_table json_event_obj callback user_data _ _ _ _ hf
  have hname : name_does_not_win
      (matrix_statetable_update state_table json_event_obj callback user_data).1 false =
      true := by
    unfold name_does_not_win
    rw [hget]
    rfl
  have hcanon2 : no_canonical_alias
      (matrix_statetable_update state_table json_event_obj callback user_data).1 = true := by
    unfold no_canonical_alias
    rw [get_event_update_other state_table json_event_obj callback user_data _ _ _ _ hf
      "m.room.canonical_alias" "" (by decide), hcanon]
  rw [get_room_alias_new_of_fall_through _ _ hname hcanon2]
  unfold matrix_statetable_any_alias
  rw [lookup_update_other_type state_table json_event_obj callback user_data _ _ _ _ hf
    "m.room.aliases" (by decide)]
  cases hl : g_hash_table_lookup state_table "m.room.aliases" with
  | none => rfl
  | some entries =>
    rw [haliases entries hl]
    rfl

/-- The room named `Demo Room` by a first update has no name or alias left
once a second update sets its name to `""`. -/
theorem clear_room_name_witness :
    matrix_statetable_get_room_alias_new
      (matrix_statetable_update
        (matrix_statetable_update matrix_statetable_new
          (raw_state_event "m.room.name" "" "@a:x" [("name", JsonNode.str "Demo Room")])
          (none : Option (MatrixStateUpdateCallback Unit)) ()).1
        (raw_state_event "m.room.name" "" "@a:x" [("name", JsonNode.str "")])
        (none : Option (MatrixStateUpdateCallback Unit)) ()).1 false = none :=
  clear_room_name
    (matrix_statetable_update matrix_statetable_new
      (raw_state_event "m.room.name" "" "@a:x" [("name", JsonNode.str "Demo Room")])
      (none : Option (MatrixStateUpdateCallback Unit)) ()).1
    (raw_state_event "m.room.name" "" "@a:x" [("name", JsonNode.str "")]) none ()
    "@a:x" (by decide) (by decide) (by decide) rfl rfl
    (by
      intro entries hl
      have hnone : g_hash_table_lookup
          (matrix_statetable_update matrix_statetable_new
            (raw_state_event "m.room.name" "" "@a:x" [("name", JsonNode.str "Demo Room")])
            (none : Option (MatrixStateUpdateCallback Unit)) ()).1 "m.room.aliases" = none :=
        rfl
      rw [hnone] at hl
      cases hl)

/-- C12. Notification before commit: for an accepted raw event and any
callback, `matrix_statetable_update` runs the callback exactly once, with the
normalised type and state key, with `old` the event that
`matrix_statetable_get_event` returned for them before the call (absent if
none) and `new` the newly built event; the table on which the callback runs
still reads as before the call at every pair, so it still returns `old`
there, and the table returned by the update returns `new`. -/
theorem notify_before_commit (state_table : MatrixRoomStateEventTable)
    (json_event_obj : JsonObject) (event_type state_key sender : String)
    (content : JsonObject)
    (h : matrix_statetable_update_fields json_event_obj =
      some (event_type, state_key, sender, content)) :
    ∃ table_at_call : MatrixRoomStateEventTable,
      (∀ t k : String, matrix_statetable_get_event table_at_call t k =
        matrix_statetable_get_event state_table t k) ∧
      (∀ (σ : Type) (cb : MatrixStateUpdateCallback σ) (user_data : σ),
        (matrix_statetable_update state_table json_event_obj (some cb) user_data).2 =
          cb table_at_call event_type state_key
            (matrix_statetable_get_event state_table event_type state_key)
            { event_type := event_type, sender := some sender, content := content }
            user_data ∧
        matrix_statetable_get_event
            (matrix_statetable_update state_table json_event_obj (some cb) user_data).1
            event_type state_key =
          some { event_type := event_type, sender := some sender, content := content }) ∧
      (matrix_statetable_update state_table json_event_obj (some record_call) []).2 =
        [{ table_at_call := table_at_call, event_type := event_type,
           state_key := state_key,
           old_event := matrix_statetable_get_event state_table event_type state_key,
           event := { event_type := event_type, sender := some sender,
                      content := content } }] := by
  refine ⟨_, get_event_vivified state_table event_type, ?_, ?_⟩
  · intro σ cb user_data
    exact ⟨update_callback_state _ _ cb user_data _ _ _ _ h,
      get_event_update_self _ _ _ _ _ _ _ _ h⟩
  · rw [update_record_call _ _ _ _ _ _ _ h]
    rfl

/-- The callback of the update that renames `Demo Room` to `Other Room` is
handed the old and the new event, on a table that still reads `Demo Room`. -/
theorem notify_before_commit_witness :
    ∃ table_at_call : MatrixRoomStateEventTable,
      (∀ t k : String, matrix_statetable_get_event table_at_call t k =
        matrix_statetable_get_event
          [("m.room.name",
            [("", { event_type := "m.room.name", sender := some "@a:x",
                    content := [("name", JsonNode.str "Demo Room")] })])] t k) ∧
      (∀ (σ : Type) (cb : MatrixStateUpdateCallback σ) (user_data : σ),
        (matrix_statetable_update
            [("m.room.name",
              [("", { event_type := "m.room.name", sender := some "@a:x",
                      content := [("name", JsonNode.str "Demo Room")] })])]
            (raw_state_event "m.room.name" "" "@b:x" [("name", JsonNode.str "Other Room")])
            (some cb) user_data).2 =
          cb table_at_call "m.room.name" ""
            (matrix_statetable_get_event
              [("m.room.name",
                [("", { event_type := "m.room.name", sender := some "@a:x",
                        content := [("name", JsonNode.str "Demo Room")] })])]
              "m.room.name" "")
            { event_type := "m.room.name", sender := some "@b:x",
              content := [("name", JsonNode.str "Other Room")] }
            user_data ∧
        matrix_statetable_get_event
            (matrix_statetable_update
              [("m.room.name",
                [("", { event_type := "m.room.name", sender := some "@a:x",
                        content := [("name", JsonNode.str "Demo Room")] })])]
              (raw_state_event "m.room.name" "" "@b:x" [("name", JsonNode.str "Other Room")])
              (some cb) user_data).1
            "m.room.name" "" =
          some { event_type := "m.room.name", sender := some "@b:x",
                 content := [("name", JsonNode.str "Other Room")] }) ∧
      (matrix_statetable_update
          [("m.room.name",
            [("", { event_type := "m.room.name", sender := some "@a:x",
                    content := [("name", JsonNode.str "Demo Room")] })])]
          (raw_state_event "m.room.name" "" "@b:x" [("name", JsonNode.str "Other Room")])
          (some record_call) []).2 =
        [{ table_at_call := table_at_call, event_type := "m.room.name",
           state_key := "",
           old_event := matrix_statetable_get_event
             [("m.room.name",
               [("", { event_type := "m.room.name", sender := some "@a:x",
                       content := [("name", JsonNode.str "Demo Room")] })])]
             "m.room.name" "",
           event := { event_type := "m.room.name", sender := some "@b:x",
                      content := [("name", JsonNode.str "Other Room")] } }] :=
  notify_before_commit _
    (raw_state_event "m.room.name" "" "@b:x" [("name", JsonNode.str "Other Room")])
    "m.room.name" "" "@b:x" [("name", JsonNode.str "Other Room")]
    (update_fields_raw_state_event _ _ _ _ (by decide))

/-- C13. Acceptance is decided exactly by validation after normalisation:
`matrix_statetable_update` invokes the callback, once, if and only if type
and content are present and either the type is `m.typing` or both state key
and sender are present; in every other case no callback is invoked and the
table is returned unchanged.  In particular a typing event with a content
object and neither state key nor sender is accepted. -/
theorem acceptance_iff_validation (state_table : MatrixRoomStateEventTable)
    (json_event_obj : JsonObject) :
    ((matrix_statetable_update state_table json_event_obj (some record_call) []).2.length = 1 ↔
      update_is_accepted json_event_obj = true) ∧
    ((matrix_statetable_update state_table json_event_obj (some record_call) []).2 ≠ [] ↔
      update_is_accepted json_event_obj = true) ∧
    (update_is_accepted json_event_obj = false →
      ∀ (σ : Type) (callback : Option (MatrixStateUpdateCallback σ)) (user_data : σ),
        matrix_statetable_update state_table json_event_obj callback user_data =
          (state_table, user_data)) ∧
    (matrix_json_object_get_string_member json_event_obj "type" = some "m.typing" →
      matrix_json_object_get_string_member json_event_obj "state_key" = none →
      matrix_json_object_get_string_member json_event_obj "sender" = none →
      (matrix_json_object_get_object_member json_event_obj "content").isSome = true →
      update_is_accepted json_event_obj = true) := by
  have hiff := update_fields_isSome json_event_obj
  cases hf : matrix_statetable_update_fields json_event_obj with
  | none =>
    rw [hf] at hiff
    have hacc : update_is_accepted json_event_obj = false := by
      rw [← hiff]
      rfl
    have hrej := update_rejected state_table json_event_obj (some record_call) [] hf
    refine ⟨?_, ?_, ?_, ?_⟩
    · rw [hrej, hacc]
      simp
    · rw [hrej, hacc]
      simp
    · intro _ σ callback user_data
      exact update_rejected _ _ _ _ hf
    · intro ht hk hs hc
      unfold update_is_accepted at hacc ⊢
      rw [ht] at hacc ⊢
      rw [hc] at hacc
      simp at hacc
  | some fields =>
    obtain ⟨event_type, state_key, sender, content⟩ := fields
    rw [hf] at hiff
    have hacc : update_is_accepted json_event_obj = true := by
      rw [← hiff]
      rfl
    have hlog := update_record_call state_table json_event_obj [] _ _ _ _ hf
    refine ⟨?_, ?_, ?_, ?_⟩
    · rw [hlog, hacc]
      simp
    · rw [hlog, hacc]
      simp
    · intro hno
      rw [hacc] at hno
      cases hno
    · intro _ _ _ _
      exact hacc

/-- A typing event with a content object and neither state key nor sender
reaches the callback. -/
theorem acceptance_iff_validation_witness :
    (matrix_statetable_update matrix_statetable_new
        [("type", JsonNode.str "m.typing"),
         ("content", JsonNode.obj [("user_ids", JsonNode.arr [])])]
        (some record_call) []).2.length = 1 :=
  (acceptance_iff_validation matrix_statetable_new
    [("type", JsonNode.str "m.typing"),
     ("content", JsonNode.obj [("user_ids", JsonNode.arr [])])]).1.mpr (by decide)

/-- C14. Frame of update: an accepted update with normalised pair
(type, state key) leaves `matrix_statetable_get_event` unchanged at every
other pair; hence after any sequence of updates, a pair reads the event of
the last accepted update of the sequence written to it, whatever updates to
other pairs come in between or after. -/
theorem update_frame {σ : Type} (state_table : MatrixRoomStateEventTable)
    (json_event_obj : JsonObject) (callback : Option (MatrixStateUpdateCallback σ))
    (user_data : σ) (event_type state_key sender : String) (content : JsonObject)
    (before after : List (JsonObject × Option (MatrixStateUpdateCallback σ)))
    (h : matrix_statetable_update_fields json_event_obj =
      some (event_type, state_key, sender, content))
    (hafter : ∀ call ∈ after, ∀ (sender0 : String) (content0 : JsonObject),
      matrix_statetable_update_fields call.1 ≠
        some (event_type, state_key, sender0, content0)) :
    (∀ t k : String, ¬ (t = event_type ∧ k = state_key) →
      matrix_statetable_get_event
          (matrix_statetable_update state_table json_event_obj callback user_data).1 t k =
        matrix_statetable_get_event state_table t k) ∧
    matrix_statetable_get_event
        (matrix_statetable_update_all state_table
          (before ++ (json_event_obj, callback) :: after) user_data).1
        event_type state_key =
      some { event_type := event_type, sender := some sender, content := content } := by
  refine ⟨fun t k hne => get_event_update_other _ _ _ _ _ _ _ _ h t k hne, ?_⟩
  rw [update_all_append]
  simp only [matrix_statetable_update_all]
  rw [get_event_update_all_other event_type state_key after _ _ hafter]
  exact get_event_update_self _ _ _ _ _ _ _ _ h

/-- A topic update between two name updates, and a member update after
them: the name read back is that of the second name update, and the first
name update leaves the topic pair alone. -/
theorem update_frame_witness :
    (∀ t k : String, ¬ (t = "m.room.name" ∧ k = "") →
      matrix_statetable_get_event
          (matrix_statetable_update matrix_statetable_new
            (raw_state_event "m.room.name" "" "@b:x" [("name", JsonNode.str "Second")])
            (none : Option (MatrixStateUpdateCallback Unit)) ()).1 t k =
        matrix_statetable_get_event matrix_statetable_new t k) ∧
    matrix_statetable_get_event
        (matrix_statetable_update_all matrix_statetable_new
          ([(raw_state_event "m.room.name" "" "@a:x" [("name", JsonNode.str "First")],
              (none : Option (MatrixStateUpdateCallback Unit))),
            (raw_state_event "m.room.topic" "" "@a:x" [("topic", JsonNode.str "T")],
              none)] ++
            (raw_state_event "m.room.name" "" "@b:x" [("name", JsonNode.str "Second")],
              none) ::
            [(raw_state_event "m.room.member" "@a:x" "@a:x"
                [("membership", JsonNode.str "join")], none)]) ()).1
        "m.room.name" "" =
      some { event_type := "m.room.name", sender := some "@b:x",
             content := [("name", JsonNode.str "Second")] } :=
  update_frame matrix_statetable_new
    (raw_state_event "m.room.name" "" "@b:x" [("name", JsonNode.str "Second")]) none ()
    "m.room.name" "" "@b:x" [("name", JsonNode.str "Second")]
    [(raw_state_event "m.room.name" "" "@a:x" [("name", JsonNode.str "First")], none),
      (raw_state_event "m.room.topic" "" "@a:x" [("topic", JsonNode.str "T")], none)]
    [(raw_state_event "m.room.member" "@a:x" "@a:x"
        [("membership", JsonNode.str "join")], none)]
    (update_fields_raw_state_event _ _ _ _ (by decide))
    (by
      intro call hcall sender0 content0
      rw [List.mem_singleton] at hcall
      subst hcall
      rw [update_fields_raw_state_event _ _ _ _ (by decide)]
      intro heq
      have h1 : "m.room.member" = "m.room.name" :=
        congrArg (fun f => f.1) (Option.some.inj heq)
      exact absurd h1 (by decide))

/-- C15. Name falls through: when nothing is stored under
(`m.room.name`, `""`), or the `name` field of its content is absent, not a
string or the empty string, `matrix_statetable_get_room_alias_new` gives the
same result without `alias_only` as with it, in whatever order the aliases
entries are enumerated. -/
theorem name_falls_through (state_table : MatrixRoomStateEventTable)
    (hname : name_does_not_win state_table false = true) :
    matrix_statetable_get_room_alias_new state_table false =
      matrix_statetable_get_room_alias_new state_table true := by
  simp only [matrix_statetable_get_room_alias_new,
    room_name_of_name_does_not_win _ _ hname,
    room_name_of_name_does_not_win state_table true rfl]

/-- A room whose name is the number 5 and that has one alias resolves to the
alias with and without `alias_only`. -/
theorem name_falls_through_witness :
    matrix_statetable_get_room_alias_new
      [("m.room.name",
          [("", { event_type := "m.room.name", sender := some "@a:x",
                  content := [("name", JsonNode.int 5)] })]),
        ("m.room.aliases",
          [("y", { event_type := "m.room.aliases", sender := some "@a:y",
                   content := [("aliases", JsonNode.arr [JsonNode.str "#demo:y"])] })])]
      false =
    matrix_statetable_get_room_alias_new
      [("m.room.name",
          [("", { event_type := "m.room.name", sender := some "@a:x",
                  content := [("name", JsonNode.int 5)] })]),
        ("m.room.aliases",
          [("y", { event_type := "m.room.aliases", sender := some "@a:y",
                   content := [("aliases", JsonNode.arr [JsonNode.str "#demo:y"])] })])]
      true :=
  name_falls_through _ (by decide)

/-! ## Resolution with `alias_only` -/

/-- The aliases step scans the entries of `m.room.aliases`, none when the
table has no such inner mapping. -/
theorem any_alias_eq_scan (state_table : MatrixRoomStateEventTable) :
    matrix_statetable_any_alias state_table =
      matrix_statetable_scan_aliases
        ((g_hash_table_lookup state_table "m.room.aliases").getD []) := by
  unfold matrix_statetable_any_alias
  cases g_hash_table_lookup state_table "m.room.aliases" <;> rfl

/-- With `alias_only` set the result is read off the canonical alias and the
`m.room.aliases` entries alone. -/
theorem get_room_alias_new_alias_only_congr (table1 table2 : MatrixRoomStateEventTable)
    (hagree : ∀ t k : String, t ≠ "m.room.name" →
      matrix_statetable_get_event table1 t k = matrix_statetable_get_event table2 t k)
    (horder : (g_hash_table_lookup table1 "m.room.aliases").getD [] =
      (g_hash_table_lookup table2 "m.room.aliases").getD []) :
    matrix_statetable_get_room_alias_new table1 true =
      matrix_statetable_get_room_alias_new table2 true := by
  have hany : matrix_statetable_any_alias table1 = matrix_statetable_any_alias table2 := by
    rw [any_alias_eq_scan, any_alias_eq_scan, horder]
  simp only [matrix_statetable_get_room_alias_new,
    room_name_of_name_does_not_win table1 true rfl,
    room_name_of_name_does_not_win table2 true rfl,
    matrix_statetable_canonical_alias,
    hagree "m.room.canonical_alias" "" (by decide), hany]

/-- C16. With `alias_only` set, room names are never consulted: two tables
that agree on every entry of a type other than `m.room.name`, with the
`m.room.aliases` entries enumerated in the same order, give the same result
of `matrix_statetable_get_room_alias_new` with `alias_only`; in particular
an accepted `m.room.name` update does not change that result. -/
theorem alias_only_ignores_names (table1 table2 : MatrixRoomStateEventTable)
    (hagree : ∀ t k : String, t ≠ "m.room.name" →
      matrix_statetable_get_event table1 t k = matrix_statetable_get_event table2 t k)
    (horder : (g_hash_table_lookup table1 "m.room.aliases").getD [] =
      (g_hash_table_lookup table2 "m.room.aliases").getD []) :
    matrix_statetable_get_room_alias_new table1 true =
      matrix_statetable_get_room_alias_new table2 true ∧
    ∀ (σ : Type) (json_event_obj : JsonObject)
      (callback : Option (MatrixStateUpdateCallback σ)) (user_data : σ)
      (state_key sender : String) (content : JsonObject),
      matrix_statetable_update_fields json_event_obj =
        some ("m.room.name", state_key, sender, content) →
      matrix_statetable_get_room_alias_new
          (matrix_statetable_update table1 json_event_obj callback user_data).1 true =
        matrix_statetable_get_room_alias_new table1 true := by
  refine ⟨get_room_alias_new_alias_only_congr table1 table2 hagree horder, ?_⟩
  intro σ json_event_obj callback user_data state_key sender content hf
  apply get_room_alias_new_alias_only_congr
  · intro t k ht
    exact get_event_update_other _ _ _ _ _ _ _ _ hf t k (fun hp => ht hp.1)
  · rw [lookup_update_other_type _ _ _ _ _ _ _ _ hf "m.room.aliases" (by decide)]

/-- A room with an alias, once unnamed and once named `Demo Room`: with
`alias_only` both resolve alike, and a further name update changes nothing. -/
theorem alias_only_ignores_names_witness :
    matrix_statetable_get_room_alias_new
        [("m.room.aliases",
          [("y", { event_type := "m.room.aliases", sender := some "@a:y",
                   content := [("aliases", JsonNode.arr [JsonNode.str "#demo:y"])] })])]
        true =
      matrix_statetable_get_room_alias_new
        [("m.room.name",
            [("", { event_type := "m.room.name", sender := some "@a:x",
                    content := [("name", JsonNode.str "Demo Room")] })]),
          ("m.room.aliases",
            [("y", { event_type := "m.room.aliases", sender := some "@a:y",
                     content := [("aliases", JsonNode.arr [JsonNode.str "#demo:y"])] })])]
        true ∧
    ∀ (σ : Type) (json_event_obj : JsonObject)
      (callback : Option (MatrixStateUpdateCallback σ)) (user_data : σ)
      (state_key sender : String) (content : JsonObject),
      matrix_statetable_update_fields json_event_obj =
        some ("m.room.name", state_key, sender, content) →
      matrix_statetable_get_room_alias_new
          (matrix_statetable_update
            [("m.room.aliases",
              [("y", { event_type := "m.room.aliases", sender := some "@a:y",
                       content := [("aliases", JsonNode.arr [JsonNode.str "#demo:y"])] })])]
            json_event_obj callback user_data).1 true =
        matrix_statetable_get_room_alias_new
          [("m.room.aliases",
            [("y", { event_type := "m.room.aliases", sender := some "@a:y",
                     content := [("aliases", JsonNode.arr [JsonNode.str "#demo:y"])] })])]
          true :=
  alias_only_ignores_names _ _
    (by
      intro t k ht
      have hne : ¬ "m.room.name" = t := fun e => ht e.symm
      simp [matrix_statetable_get_event, g_hash_table_lookup, hne])
    rfl

/-! ## Invariants of the tables built by updates -/

/-- An update keeps the single typing slot. -/
theorem single_typing_slot_update {σ : Type} (state_table : MatrixRoomStateEventTable)
    (json_event_obj : JsonObject) (callback : Option (MatrixStateUpdateCallback σ))
    (user_data : σ) (hinv : single_typing_slot state_table = true) :
    single_typing_slot
      (matrix_statetable_update state_table json_event_obj callback user_data).1 = true := by
  cases hf : matrix_statetable_update_fields json_event_obj with
  | none =>
    rw [update_rejected _ _ _ _ hf]
    exact hinv
  | some fields =>
    obtain ⟨event_type, state_key, sender, content⟩ := fields
    by_cases ht : event_type = "m.typing"
    · subst ht
      obtain ⟨rfl, rfl⟩ := update_fields_typing_inv _ _ _ _ hf
      unfold single_typing_slot at hinv ⊢
      rw [lookup_update_same_type _ _ _ _ _ _ _ _ hf]
      cases hl : g_hash_table_lookup state_table "m.typing" with
      | none => rfl
      | some inner =>
        rw [hl] at hinv
        match inner, hinv with
        | [], _ => rfl
        | [(key, old)], hinv =>
          simp only [Bool.and_eq_true, beq_iff_eq] at hinv
          obtain ⟨hkey, _⟩ := hinv
          subst hkey
          simp [g_hash_table_insert]
    · have hne : "m.typing" ≠ event_type := fun e => ht e.symm
      unfold single_typing_slot at hinv ⊢
      rw [lookup_update_other_type _ _ _ _ _ _ _ _ hf "m.typing" hne]
      exact hinv

/-- A sequence of updates keeps the single typing slot. -/
theorem single_typing_slot_update_all {σ : Type}
    (calls : List (JsonObject × Option (MatrixStateUpdateCallback σ))) :
    ∀ (state_table : MatrixRoomStateEventTable) (user_data : σ),
    single_typing_slot state_table = true →
    single_typing_slot (matrix_statetable_update_all state_table calls user_data).1 = true := by
  induction calls with
  | nil => intro state_table user_data hinv; exact hinv
  | cons call rest ih =>
    intro state_table user_data hinv
    obtain ⟨json_event_obj, callback⟩ := call
    simp only [matrix_statetable_update_all]
    exact ih _ _ (single_typing_slot_update _ _ _ _ hinv)

/-- What the single typing slot says about the inner mapping and about
lookups. -/
theorem single_typing_slot_reads (state_table : MatrixRoomStateEventTable)
    (hinv : single_typing_slot state_table = true) :
    (∀ inner : GHashTable MatrixRoomEvent,
      g_hash_table_lookup state_table "m.typing" = some inner →
        inner.length ≤ 1 ∧
        ∀ entry ∈ inner, entry.1 = "typing" ∧ entry.2.sender = some "") ∧
    (∀ k : String, k ≠ "typing" →
      matrix_statetable_get_event state_table "m.typing" k = none) ∧
    (∀ event : MatrixRoomEvent,
      matrix_statetable_get_event state_table "m.typing" "typing" = some event →
        event.sender = some "") := by
  unfold single_typing_slot at hinv
  cases hl : g_hash_table_lookup state_table "m.typing" with
  | none => simp [matrix_statetable_get_event, hl]
  | some inner =>
    rw [hl] at hinv
    match inner, hinv with
    | [], _ => simp [matrix_statetable_get_event, hl, g_hash_table_lookup]
    | [(key, old)], hinv =>
      simp only [Bool.and_eq_true, beq_iff_eq] at hinv
      obtain ⟨hkey, hsender⟩ := hinv
      subst hkey
      refine ⟨?_, ?_, ?_⟩
      · intro inner0 h0
        cases h0
        simp [hsender]
      · intro k hk
        have hk2 : ¬ "typing" = k := fun e => hk e.symm
        simp [matrix_statetable_get_event, hl, g_hash_table_lookup, hk2]
      · intro event hev
        simp only [matrix_statetable_get_event, hl, g_hash_table_lookup, if_true,
          Option.some.injEq] at hev
        rw [← hev]
        exact hsender

/-- An update keeps the type of every stored event equal to the type it is
stored under. -/
theorem stored_type_update {σ : Type} (state_table : MatrixRoomStateEventTable)
    (json_event_obj : JsonObject) (callback : Option (MatrixStateUpdateCallback σ))
    (user_data : σ)
    (hinv : ∀ (t k : String) (event : MatrixRoomEvent),
      matrix_statetable_get_event state_table t k = some event → event.event_type = t) :
    ∀ (t k : String) (event : MatrixRoomEvent),
      matrix_statetable_get_event
        (matrix_statetable_update state_table json_event_obj callback user_data).1 t k =
        some event → event.event_type = t := by
  intro t k event hev
  cases hf : matrix_statetable_update_fields json_event_obj with
  | none =>
    rw [update_rejected _ _ _ _ hf] at hev
    exact hinv t k event hev
  | some fields =>
    obtain ⟨event_type, state_key, sender, content⟩ := fields
    by_cases hp : t = event_type ∧ k = state_key
    · obtain ⟨rfl, rfl⟩ := hp
      rw [get_event_update_self _ _ _ _ _ _ _ _ hf] at hev
      cases hev
      rfl
    · rw [get_event_update_other _ _ _ _ _ _ _ _ hf t k hp] at hev
      exact hinv t k event hev

/-- A sequence of updates keeps the type of every stored event equal to the
type it is stored under. -/
theorem stored_type_update_all {σ : Type}
    (calls : List (JsonObject × Option (MatrixStateUpdateCallback σ))) :
    ∀ (state_table : MatrixRoomStateEventTable) (user_data : σ),
    (∀ (t k : String) (event : MatrixRoomEvent),
      matrix_statetable_get_event state_table t k = some event → event.event_type = t) →
    ∀ (t k : String) (event : MatrixRoomEvent),
      matrix_statetable_get_event
        (matrix_statetable_update_all state_table calls user_data).1 t k = some event →
      event.event_type = t := by
  induction calls with
  | nil => intro state_table user_data hinv; exact hinv
  | cons call rest ih =>
    intro state_table user_data hinv
    obtain ⟨json_event_obj, callback⟩ := call
    simp only [matrix_statetable_update_all]
    exact ih _ _ (stored_type_update _ _ _ _ hinv)

/-- C17. Single typing slot: in every table reached from
`matrix_statetable_new` by a sequence of `matrix_statetable_update` calls,
the inner mapping for `m.typing` has at most one entry and no state key other
than `typing`, and the event stored there, if any, has the sender `""`. -/
theorem typing_single_slot {σ : Type}
    (calls : List (JsonObject × Option (MatrixStateUpdateCallback σ))) (user_data : σ) :
    single_typing_slot
      (matrix_statetable_update_all matrix_statetable_new calls user_data).1 = true ∧
    (∀ inner : GHashTable MatrixRoomEvent,
      g_hash_table_lookup
        (matrix_statetable_update_all matrix_statetable_new calls user_data).1 "m.typing" =
        some inner →
      inner.length ≤ 1 ∧ ∀ entry ∈ inner, entry.1 = "typing" ∧ entry.2.sender = some "") ∧
    (∀ k : String, k ≠ "typing" →
      matrix_statetable_get_event
        (matrix_statetable_update_all matrix_statetable_new calls user_data).1
        "m.typing" k = none) ∧
    (∀ event : MatrixRoomEvent,
      matrix_statetable_get_event
        (matrix_statetable_update_all matrix_statetable_new calls user_data).1
        "m.typing" "typing" = some event →
      event.sender = some "") := by
  have hinv := single_typing_slot_update_all calls matrix_statetable_new user_data rfl
  exact ⟨hinv, single_typing_slot_reads _ hinv⟩

/-- After two typing events, one sent with the state key `ignored` and the
sender `@x:y` and one with neither, nothing is stored under
(`m.typing`, `ignored`). -/
theorem typing_single_slot_witness :
    matrix_statetable_get_event
      (matrix_statetable_update_all matrix_statetable_new
        [(raw_state_event "m.typing" "ignored" "@x:y" [("user_ids", JsonNode.arr [])],
            (none : Option (MatrixStateUpdateCallback Unit))),
          ([("type", JsonNode.str "m.typing"),
            ("content", JsonNode.obj [("user_ids", JsonNode.arr [JsonNode.str "@x:y"])])],
            none)] ()).1
      "m.typing" "ignored" = none :=
  (typing_single_slot
    [(raw_state_event "m.typing" "ignored" "@x:y" [("user_ids", JsonNode.arr [])],
        (none : Option (MatrixStateUpdateCallback Unit))),
      ([("type", JsonNode.str "m.typing"),
        ("content", JsonNode.obj [("user_ids", JsonNode.arr [JsonNode.str "@x:y"])])],
        none)] ()).2.2.1 "ignored" (by decide)

/-- C18. Stored type matches the outer key: in every table reached from
`matrix_statetable_new` by a sequence of `matrix_statetable_update` calls,
an event that `matrix_statetable_get_event` returns for (t, k) has the event
type t. -/
theorem stored_type_matches_key {σ : Type}
    (calls : List (JsonObject × Option (MatrixStateUpdateCallback σ))) (user_data : σ)
    (t k : String) (event : MatrixRoomEvent)
    (hevent : matrix_statetable_get_event
      (matrix_statetable_update_all matrix_statetable_new calls user_data).1 t k =
      some event) :
    event.event_type = t :=
  stored_type_update_all calls matrix_statetable_new user_data
    (fun t0 k0 event0 h0 => by cases h0) t k event hevent

/-- The membership event read back after a name update and a membership
update has the type `m.room.member`. -/
theorem stored_type_matches_key_witness :
    matrix_statetable_get_event
      (matrix_statetable_update_all matrix_statetable_new
        [(raw_state_event "m.room.name" "" "@a:x" [("name", JsonNode.str "Demo Room")],
            (none : Option (MatrixStateUpdateCallback Unit))),
          (raw_state_event "m.room.member" "@a:x" "@a:x"
            [("membership", JsonNode.str "join")], none)] ()).1
      "m.room.member" "@a:x" =
      some { event_type := "m.room.member", sender := some "@a:x",
             content := [("membership", JsonNode.str "join")] } ∧
    (MatrixRoomEvent.mk "m.room.member" (some "@a:x")
      [("membership", JsonNode.str "join")]).event_type = "m.room.member" :=
  ⟨rfl,
    stored_type_matches_key
      [(raw_state_event "m.room.name" "" "@a:x" [("name", JsonNode.str "Demo Room")],
          (none : Option (MatrixStateUpdateCallback Unit))),
        (raw_state_event "m.room.member" "@a:x" "@a:x"
          [("membership", JsonNode.str "join")], none)] ()
      "m.room.member" "@a:x"
      { event_type := "m.room.member", sender := some "@a:x",
        content := [("membership", JsonNode.str "join")] } rfl⟩

/-! ## When the resolution comes back empty -/

theorem room_name_eq_none_iff (state_table : MatrixRoomStateEventTable) (alias_only : Bool) :
    matrix_statetable_room_name state_table alias_only = none ↔
      name_does_not_win state_table alias_only = true := by
  refine ⟨?_, room_name_of_name_does_not_win state_table alias_only⟩
  unfold matrix_statetable_room_name name_does_not_win
  cases alias_only with
  | true => intro _; rfl
  | false =>
    cases hev : matrix_statetable_get_event state_table "m.room.name" "" with
    | none => intro _; rfl
    | some event =>
      cases hn : matrix_json_object_get_string_member event.content "name" with
      | none =>
        intro _
        simp [hn]
      | some name =>
        by_cases hne : name = ""
        · intro _
          simp [hn, hne]
        · intro h
          simp [hn, hne] at h

theorem canonical_alias_eq_none_iff (state_table : MatrixRoomStateEventTable) :
    matrix_statetable_canonical_alias state_table = none ↔
      no_canonical_alias state_table = true := by
  unfold matrix_statetable_canonical_alias no_canonical_alias
  cases hev : matrix_statetable_get_event state_table "m.room.canonical_alias" "" with
  | none => simp
  | some event => simp

theorem scan_aliases_eq_none_iff (entries : GHashTable MatrixRoomEvent) :
    matrix_statetable_scan_aliases entries = none ↔
      ∀ entry ∈ entries, first_alias entry.2 = none := by
  induction entries with
  | nil => simp [matrix_statetable_scan_aliases]
  | cons head rest ih =>
    obtain ⟨key, event⟩ := head
    rw [scan_aliases_cons]
    cases hfa : first_alias event with
    | none =>
      simp only [List.mem_cons, forall_eq_or_imp, hfa, true_and]
      exact ih
    | some tmpname =>
      simp only [List.mem_cons, forall_eq_or_imp, hfa]
      simp

theorem get_room_alias_new_eq_none_iff (state_table : MatrixRoomStateEventTable)
    (alias_only : Bool) :
    matrix_statetable_get_room_alias_new state_table alias_only = none ↔
      name_does_not_win state_table alias_only = true ∧
      no_canonical_alias state_table = true ∧
      ∀ entry ∈ (g_hash_table_lookup state_table "m.room.aliases").getD [],
        first_alias entry.2 = none := by
  rw [← room_name_eq_none_iff, ← canonical_alias_eq_none_iff, ← scan_aliases_eq_none_iff,
    ← any_alias_eq_scan]
  unfold matrix_statetable_get_room_alias_new
  cases matrix_statetable_room_name state_table alias_only with
  | some tmpname => simp
  | none =>
    cases matrix_statetable_canonical_alias state_table with
    | some tmpname => simp
    | none => simp

/-- The Bool predicates of the first two steps do not look at the inner
mapping of `m.room.aliases`. -/
theorem steps_insert_aliases (state_table : MatrixRoomStateEventTable)
    (order : GHashTable MatrixRoomEvent) (alias_only : Bool) :
    name_does_not_win (g_hash_table_insert state_table "m.room.aliases" order) alias_only =
      name_does_not_win state_table alias_only ∧
    no_canonical_alias (g_hash_table_insert state_table "m.room.aliases" order) =
      no_canonical_alias state_table := by
  unfold name_does_not_win no_canonical_alias
  rw [get_event_insert_other _ _ _ _ _ (by decide),
    get_event_insert_other _ _ _ _ _ (by decide)]
  exact ⟨rfl, rfl⟩

/-- C19. Exactly when resolution comes back empty:
`matrix_statetable_get_room_alias_new` returns absent if and only if the room
name does not win (`alias_only` is set, or nothing is stored under
(`m.room.name`, `""`), or its `name` field is not a non-empty string), the
canonical alias does not match (nothing stored under
(`m.room.canonical_alias`, `""`), or its `alias` field is not a string) and
no `m.room.aliases` entry has an `aliases` array whose element 0 is a string.
So whether there is a result is the same for every enumeration order of the
entries, and an entry whose non-empty array starts with a non-string is
skipped, the scan going on with the entries after it. -/
theorem resolution_absent_iff (state_table : MatrixRoomStateEventTable) (alias_only : Bool) :
    (matrix_statetable_get_room_alias_new state_table alias_only = none ↔
      name_does_not_win state_table alias_only = true ∧
      no_canonical_alias state_table = true ∧
      ∀ entries : GHashTable MatrixRoomEvent,
        g_hash_table_lookup state_table "m.room.aliases" = some entries →
        ∀ entry ∈ entries, first_alias entry.2 = none) ∧
    (∀ entries order : GHashTable MatrixRoomEvent,
      g_hash_table_lookup state_table "m.room.aliases" = some entries →
      List.Perm order entries →
      (matrix_statetable_get_room_alias_new
          (g_hash_table_insert state_table "m.room.aliases" order) alias_only = none ↔
        matrix_statetable_get_room_alias_new state_table alias_only = none)) ∧
    (∀ (key : String) (event : MatrixRoomEvent) (rest : GHashTable MatrixRoomEvent),
      has_nonempty_aliases event = true → first_alias event = none →
      matrix_statetable_scan_aliases ((key, event) :: rest) =
        matrix_statetable_scan_aliases rest) := by
  refine ⟨?_, ?_, ?_⟩
  · rw [get_room_alias_new_eq_none_iff]
    cases hl : g_hash_table_lookup state_table "m.room.aliases" with
    | none => simp
    | some entries => simp
  · intro entries order hl hperm
    rw [get_room_alias_new_eq_none_iff, get_room_alias_new_eq_none_iff,
      (steps_insert_aliases state_table order alias_only).1,
      (steps_insert_aliases state_table order alias_only).2,
      g_hash_table_lookup_insert_self, hl]
    simp only [Option.getD_some]
    constructor
    · rintro ⟨h1, h2, h3⟩
      exact ⟨h1, h2, fun entry hin => h3 entry (hperm.mem_iff.mpr hin)⟩
    · rintro ⟨h1, h2, h3⟩
      exact ⟨h1, h2, fun entry hin => h3 entry (hperm.mem_iff.mp hin)⟩
  · intro key event rest _ hfa
    rw [scan_aliases_cons, hfa]

/-- A room without name or canonical alias whose only `m.room.aliases` entry
holds the array `[1]` has no name or alias. -/
theorem resolution_absent_iff_witness :
    matrix_statetable_get_room_alias_new
      [("m.room.aliases",
        [("x", { event_type := "m.room.aliases", sender := some "@a:x",
                 content := [("aliases", JsonNode.arr [JsonNode.int 1])] })])]
      false = none :=
  (resolution_absent_iff
    [("m.room.aliases",
      [("x", { event_type := "m.room.aliases", sender := some "@a:x",
               content := [("aliases", JsonNode.arr [JsonNode.int 1])] })])]
    false).1.mpr
    ⟨by decide, by decide, by
      intro entries hl entry hin
      have hsome : g_hash_table_lookup
          ([("m.room.aliases",
            [("x", { event_type := "m.room.aliases", sender := some "@a:x",
                     content := [("aliases", JsonNode.arr [JsonNode.int 1])] })])] :
            MatrixRoomStateEventTable) "m.room.aliases" =
          some [("x", { event_type := "m.room.aliases", sender := some "@a:x",
                        content := [("aliases", JsonNode.arr [JsonNode.int 1])] })] := rfl
      rw [hsome] at hl
      cases hl
      rw [List.mem_singleton] at hin
      subst hin
      rfl⟩

end MatrixStatetable
